import Mathlib

/-!
Shallow embedding of the phi-adapter-z2m translation engine
(`src/z2madapter.cpp`, `src/z2madapter.h`, phi adapter API headers).

Modelling conventions:
* C++ `double` is modelled as `ℚ` (exact real arithmetic; the source never
  relies on rounding in the properties under study).
* Qt/JSON values (`QJsonValue`) are modelled by the inductive `J`; a missing
  object key yields `J.jUndef`, mirroring `QJsonValue::Undefined`.
* `QHash`/`QJsonObject` maps are modelled as association lists with
  insert-or-replace semantics (`mapInsert`); iteration order is list order.
* `QVariant` is modelled by the inductive `Val`.
* Signals (`emit ...`) and MQTT publishes are collected into an `Event` list.
-/

namespace Z2m

/-- Model of `QJsonValue` (including the `Undefined` state returned by
`QJsonObject::value` for a missing key). Numbers carry a rational; an
"integer" JSON number is one whose denominator is 1. -/
inductive J where
  | jUndef : J
  | jNull : J
  | jBool : Bool → J
  | jNum : ℚ → J
  | jStr : String → J
  | jArr : List J → J
  | jObj : List (String × J) → J
deriving Repr

/-- `QJsonObject::value(key)`: first binding wins, `Undefined` if absent. -/
def jLookup (fields : List (String × J)) (k : String) : J :=
  match fields with
  | [] => J.jUndef
  | (k', v) :: rest => if k' = k then v else jLookup rest k

/-- `QJsonObject::contains(key)`. -/
def jContains (fields : List (String × J)) (k : String) : Bool :=
  match fields with
  | [] => false
  | (k', _) :: rest => k' = k || jContains rest k

/-- `QJsonValue::toString(defaultValue)`. -/
def J.toStringD : J → String → String
  | .jStr s, _ => s
  | _, d => d

/-- `QJsonValue::toDouble(defaultValue)`. -/
def J.toDoubleD : J → ℚ → ℚ
  | .jNum q, _ => q
  | _, d => d

/-- `QJsonValue::toInt(defaultValue)`: non-integral doubles fall back to the
default, mirroring Qt. -/
def J.toIntD : J → Int → Int
  | .jNum q, d => if q.den = 1 then q.num else d
  | _, d => d

/-- `QJsonValue::toBool(defaultValue)`. -/
def J.toBoolD : J → Bool → Bool
  | .jBool b, _ => b
  | _, d => d

def J.isDouble : J → Bool
  | .jNum _ => true
  | _ => false

def J.isString : J → Bool
  | .jStr _ => true
  | _ => false

def J.isObject : J → Bool
  | .jObj _ => true
  | _ => false

def J.isArray : J → Bool
  | .jArr _ => true
  | _ => false

def J.isUndefined : J → Bool
  | .jUndef => true
  | _ => false

def J.isBool : J → Bool
  | .jBool _ => true
  | _ => false

/-- `QJsonValue::toObject()` (empty object on mismatch). -/
def J.toObjectD : J → List (String × J)
  | .jObj fs => fs
  | _ => []

/-- `QJsonValue::toArray()` (empty array on mismatch). -/
def J.toArrayD : J → List J
  | .jArr xs => xs
  | _ => []

/-! ### Association-list maps (model of `QHash`) -/

/-- `QHash::value(key)` / lookup; first binding wins. -/
def mapLookup {κ α : Type} [DecidableEq κ] (m : List (κ × α)) (k : κ) : Option α :=
  match m with
  | [] => none
  | (k', v) :: rest => if k' = k then some v else mapLookup rest k

/-- `QHash::contains`. -/
def mapContains {κ α : Type} [DecidableEq κ] (m : List (κ × α)) (k : κ) : Bool :=
  (mapLookup m k).isSome

/-- `QHash::value(key, defaultValue)`. -/
def mapGetD {κ α : Type} [DecidableEq κ] (m : List (κ × α)) (k : κ) (d : α) : α :=
  (mapLookup m k).getD d

/-- `QHash::insert`: replace the existing binding or append a new one. -/
def mapInsert {κ α : Type} [DecidableEq κ] (m : List (κ × α)) (k : κ) (v : α) :
    List (κ × α) :=
  match m with
  | [] => [(k, v)]
  | (k', v') :: rest =>
    if k' = k then (k, v) :: rest else (k', v') :: mapInsert rest k v

/-- `QHash::remove`. -/
def mapRemove {κ α : Type} [DecidableEq κ] (m : List (κ × α)) (k : κ) :
    List (κ × α) :=
  m.filter (fun p => p.1 ≠ k)

/-! ### Qt string helpers

All string operations are written over the character list `String.data`, so
that concrete instances reduce inside the kernel. They model the `QString`
operations used by the adapter (ASCII case folding, whitespace trimming,
substring search). -/

/-- ASCII lowering, modelling `QString::toLower` on the characters the
adapter compares. -/
def charToLower (c : Char) : Char :=
  if 'A' ≤ c ∧ c ≤ 'Z' then Char.ofNat (c.toNat + 32) else c

/-- `QString::toLower`. -/
def strToLower (s : String) : String := String.mk (s.data.map charToLower)

/-- Whitespace test used by `QString::trimmed`. -/
def isQtSpace (c : Char) : Bool :=
  c = ' ' || c = '\t' || c = '\n' || c = '\r' || c = '\x0b' || c = '\x0c'

/-- `QString::trimmed`. -/
def strTrim (s : String) : String :=
  String.mk (((s.data.dropWhile isQtSpace).reverse.dropWhile isQtSpace).reverse)

/-- `QString::startsWith`. -/
def strStartsWith (s p : String) : Bool :=
  decide (s.data.take p.data.length = p.data)

/-- `QString::endsWith`. -/
def strEndsWith (s p : String) : Bool :=
  decide (s.data.reverse.take p.data.length = p.data.reverse)

/-- Drop the first `n` characters (`QString::mid(n)`). -/
def strDrop (s : String) (n : Nat) : String := String.mk (s.data.drop n)

/-- Take the first `n` characters (`QString::left(n)`). -/
def strTake (s : String) (n : Nat) : String := String.mk (s.data.take n)

/-- Index of the first occurrence of a character, `-1` when absent
(`QString::indexOf(QChar)`). -/
def strIndexOfChar (s : String) (c : Char) : Int :=
  match s.data.indexOf? c with
  | some i => (i : Int)
  | none => -1

def isPrefixChars (p l : List Char) : Bool := decide (l.take p.length = p)

def containsCharsAux (needle : List Char) : List Char → Bool
  | [] => isPrefixChars needle []
  | c :: rest => isPrefixChars needle (c :: rest) || containsCharsAux needle rest

/-- `QString::contains(substring)`. -/
def strContainsStr (s sub : String) : Bool := containsCharsAux sub.data s.data

/-- `QString::compare(a, b, Qt::CaseInsensitive) == 0`. -/
def ciEq (a b : String) : Bool := strToLower a = strToLower b

/-- Lexicographic strict order on character lists (model of `QString::<`). -/
def charListLt : List Char → List Char → Bool
  | _, [] => false
  | [], _ :: _ => true
  | a :: as, b :: bs => a < b || (a = b && charListLt as bs)

/-! ### Qt numeric helpers -/

/-- `qBound(lo, v, hi) = qMax(lo, qMin(hi, v))`. -/
def qBound (lo v hi : ℚ) : ℚ := max lo (min hi v)

/-- Truncation toward zero, as in `static_cast<qint64>(double)`. -/
def ratTrunc (q : ℚ) : Int := Int.tdiv q.num (q.den : Int)

/-- Rounding half away from zero, as in Qt `qRound` used by
`QVariant` double-to-int conversion. -/
def qRoundQ (q : ℚ) : Int :=
  if 0 ≤ q then Int.floor (q + 1/2) else -Int.floor (-q + 1/2)

/-- `QString::toInt`: optional sign followed by decimal digits (surrounding
whitespace trimmed); `none` models `ok = false`. -/
def qstringToInt (s : String) : Option Int :=
  let t := (strTrim s).data
  let (neg, digits) :=
    match t with
    | '-' :: rest => (true, rest)
    | '+' :: rest => (false, rest)
    | other => (false, other)
  if digits.isEmpty then none
  else if digits.all Char.isDigit then
    let n : Nat := digits.foldl (fun acc c => acc * 10 + (c.toNat - 48)) 0
    some (if neg then -(n : Int) else (n : Int))
  else none

/-! ### Value codec: brightness scaling (`Z2mAdapter::scaleToPercent`,
`Z2mAdapter::scaleFromPercent`) -/

/-- `Z2mAdapter::scaleToPercent`. -/
def scaleToPercent (raw rawMin rawMax : ℚ) : ℚ :=
  if rawMax ≤ rawMin then raw
  else ((qBound rawMin raw rawMax) - rawMin) / (rawMax - rawMin) * 100

/-- `Z2mAdapter::scaleFromPercent`. -/
def scaleFromPercent (percent rawMin rawMax : ℚ) : ℚ :=
  if rawMax ≤ rawMin then percent
  else rawMin + (rawMax - rawMin) * ((qBound 0 percent 100) / 100)

/-! ### Stable enum map (`buildStableEnumMap`) -/

/-- Case-insensitive `≤` used by `QStringList::sort(Qt::CaseInsensitive)`. -/
def ciLe (a b : String) : Bool :=
  ! charListLt (strToLower b).data (strToLower a).data

/-- Insert into a CI-sorted list, keeping earlier elements first on ties. -/
def insertSortedCI (x : String) : List String → List String
  | [] => [x]
  | y :: ys => if ciLe x y then x :: y :: ys else y :: insertSortedCI x ys

/-- Model of `QStringList::sort(Qt::CaseInsensitive)` (stable). -/
def sortCI : List String → List String
  | [] => []
  | x :: xs => insertSortedCI x (sortCI xs)

/-- One step of the first loop of `buildStableEnumMap`: keep a positive
integer entry of the existing `QJsonObject` and track the running maximum. -/
def seedStep (acc : List (String × Int) × Int) (kv : String × J) :
    List (String × Int) × Int :=
  if kv.2.isDouble then
    let v := kv.2.toIntD 0
    if v ≤ 0 then acc
    else (mapInsert acc.1 kv.1 v, if acc.2 < v then v else acc.2)
  else acc

/-- First loop of `buildStableEnumMap`: seed the map with the positive
integer entries of the existing `QJsonObject` and track the max value. -/
def enumSeed (existing : List (String × J)) : List (String × Int) × Int :=
  existing.foldl seedStep ([], 0)

/-- Second loop of `buildStableEnumMap`: walk the sorted raw keys, skipping
empty or already-present keys, assigning `++maxValue` to new ones. -/
def assignNew : List String → List (String × Int) → Int → List (String × Int)
  | [], m, _ => m
  | k :: ks, m, mx =>
    if k = "" then assignNew ks m mx
    else if mapContains m k then assignNew ks m mx
    else assignNew ks (mapInsert m k (mx + 1)) (mx + 1)

/-- `buildStableEnumMap(rawKeys, existing)` from `z2madapter.cpp`. -/
def buildStableEnumMap (rawKeys : List String) (existing : List (String × J)) :
    List (String × Int) :=
  let seed := enumSeed existing
  assignNew (sortCI rawKeys) seed.1 seed.2

/-- Keep the first occurrence of each string, dropping later duplicates
(fuel-indexed so that it is structurally recursive and computes). -/
def dedupFirstN : Nat → List String → List String
  | 0, _ => []
  | _ + 1, [] => []
  | n + 1, x :: xs => x :: dedupFirstN n (xs.filter (fun y => y ≠ x))

/-- Keep the first occurrence of each string, dropping later duplicates. -/
def dedupFirst (l : List String) : List String := dedupFirstN l.length l

/-- The new keys that the second loop of `buildStableEnumMap` actually
inserts, in insertion order: CI-sorted, non-empty, not already mapped,
first occurrence only. -/
def newEnumKeys (rawKeys : List String) (existing : List (String × J)) :
    List String :=
  dedupFirst ((sortCI rawKeys).filter
    (fun k => decide (¬ k = "") && ! mapContains (enumSeed existing).1 k))

/-- Position of the first occurrence of a string in a list. -/
def idxFirst (k : String) : List String → Option Nat
  | [] => none
  | x :: xs => if x = k then some 0 else (idxFirst k xs).map (· + 1)

/-! ### Canonical model types (phi adapter API, `types.h`) -/

/-- `phicore::CmdStatus` (subset of values is used by the adapter). -/
inductive CmdStatus where
  | Success | Failure | Timeout | NotSupported | InvalidArgument | Busy
  | TemporarilyOffline | NotAuthorized | NotImplemented | InternalError
deriving DecidableEq, Repr

/-- `phicore::ChannelKind` (constructors used by the adapter). -/
inductive ChannelKind where
  | Unknown | PowerOnOff | ButtonEvent | Brightness | ColorTemperature
  | ColorRGB | Temperature | Humidity | Illuminance | Motion | Battery | CO2
  | RelativeRotation | ConnectivityStatus | DeviceSoftwareUpdate
  | SignalStrength | Power | Voltage | Current | Energy | LinkQuality
  | Duration | Contact | Tamper | AmbientLightLevel
deriving DecidableEq, Repr

/-- `phicore::ChannelDataType`. -/
inductive ChannelDataType where
  | Unknown | Bool | Int | Float | String | Color | Enum
deriving DecidableEq, Repr

/-- `phicore::ConnectivityStatus` with its numeric values. -/
inductive ConnectivityStatus where
  | Unknown | Connected | Limited | Disconnected
deriving DecidableEq, Repr

/-- `static_cast<int>(ConnectivityStatus)`. -/
def ConnectivityStatus.toInt : ConnectivityStatus → Int
  | .Unknown => 0
  | .Connected => 1
  | .Limited => 2
  | .Disconnected => 3

/-- `phicore::DeviceClass` (constructors used by the adapter). -/
inductive DeviceClass where
  | Unknown | Light | Switch | Sensor | Button | Gateway
deriving DecidableEq, Repr

/-- `phicore::ButtonEventCode` with its numeric values. -/
inductive ButtonEventCode where
  | None | InitialPress | DoublePress | TriplePress | QuadruplePress
  | QuintuplePress | LongPress | LongPressRelease | ShortPressRelease
deriving DecidableEq, Repr

/-- `static_cast<int>(ButtonEventCode)`. -/
def ButtonEventCode.toInt : ButtonEventCode → Int
  | .None => 0
  | .InitialPress => 1
  | .DoublePress => 2
  | .TriplePress => 3
  | .QuadruplePress => 4
  | .QuintuplePress => 5
  | .LongPress => 10
  | .LongPressRelease => 11
  | .ShortPressRelease => 12

/-- `phicore::ChannelFlags`; only the four bits the adapter manipulates are
modelled (`Inactive`/`NoTrigger`/`Suppress` are never touched by it). -/
structure ChannelFlags where
  readable : Bool := false
  writable : Bool := false
  reportable : Bool := false
  retained : Bool := false
deriving DecidableEq, Repr

def ChannelFlagNone : ChannelFlags := {}

/-- `ChannelFlagDefaultRead = Readable | Reportable | Retained`. -/
def ChannelFlagDefaultRead : ChannelFlags :=
  { readable := true, reportable := true, retained := true }

/-- `forceReadOnly` from `z2madapter.cpp`: clear Writable, set the
read-side flags. -/
def forceReadOnly (flags : ChannelFlags) : ChannelFlags :=
  { flags with
    writable := false
    readable := true
    reportable := true
    retained := true }

def kAccessState : Int := 1
def kAccessSet : Int := 2

/-- `Z2mAdapter::flagsFromAccess`. -/
def flagsFromAccess (access : Int) : ChannelFlags :=
  let base : ChannelFlags := {}
  let withRead :=
    if access.land kAccessState ≠ 0 then
      { base with readable := true, reportable := true, retained := true }
    else base
  let withWrite :=
    if access.land kAccessSet ≠ 0 then { withRead with writable := true }
    else withRead
  if withWrite = ChannelFlagNone then ChannelFlagDefaultRead else withWrite

/-- `phicore::AdapterConfigOption`. -/
structure AdapterConfigOption where
  value : String := ""
  label : String := ""
deriving DecidableEq, Repr

/-- `phicore::Channel` (descriptor part used by the adapter). -/
structure Channel where
  name : String := ""
  id : String := ""
  kind : ChannelKind := .Unknown
  dataType : ChannelDataType := .Unknown
  flags : ChannelFlags := {}
  unit : String := ""
  minValue : ℚ := 0
  maxValue : ℚ := 0
  stepValue : ℚ := 0
  meta : List (String × J) := []
  choices : List AdapterConfigOption := []
deriving Repr

/-- `phicore::Device` (fields used by the adapter; the two used device
flags are modelled as booleans). -/
structure Device where
  name : String := ""
  deviceClass : DeviceClass := .Unknown
  flagWireless : Bool := false
  flagBattery : Bool := false
  id : String := ""
  manufacturer : String := ""
  firmware : String := ""
  model : String := ""
  meta : List (String × J) := []
deriving Repr

/-- `Z2mAdapter::Z2mChannelBinding`. -/
structure Z2mChannelBinding where
  channelId : String := ""
  property : String := ""
  kind : ChannelKind := .Unknown
  dataType : ChannelDataType := .Unknown
  flags : ChannelFlags := {}
  unit : String := ""
  rawMin : ℚ := 0
  rawMax : ℚ := 0
  rawStep : ℚ := 0
  valueScale : ℚ := 1
  endpoint : String := ""
  valueOn : String := ""
  valueOff : String := ""
  colorMode : String := ""
  scalePercent : Bool := false
  isAvailability : Bool := false
  enumRawToValue : List (String × Int) := []
  enumValueToRaw : List (Int × String) := []
deriving Repr

/-- `Z2mAdapter::Z2mDeviceEntry`. -/
structure Z2mDeviceEntry where
  device : Device := {}
  mqttId : String := ""
  channels : List Channel := []
  bindingsByChannel : List (String × Z2mChannelBinding) := []
  channelByProperty : List (String × String) := []
deriving Repr

/-! ### Fixed enum name tables (`mapRockerMode`, `mapSensitivityLevel`,
`enumLabelFor`, `isKnownEnumName`) -/

/-- `mapRockerMode` from `z2madapter.cpp` (RockerMode values 1-4). -/
def mapRockerMode (raw : String) : Option Int :=
  let key := strToLower (strTrim raw)
  if key = "single_rocker" || key = "singlerocker" then some 1
  else if key = "dual_rocker" || key = "dualrocker" then some 2
  else if key = "single_push_button" || key = "singlepushbutton" then some 3
  else if key = "dual_push_button" || key = "dualpushbutton" then some 4
  else none

/-- `mapSensitivityLevel` from `z2madapter.cpp` (values 1-5). -/
def mapSensitivityLevel (raw : String) : Option Int :=
  let key := strToLower (strTrim raw)
  if key = "low" then some 1
  else if key = "medium" then some 2
  else if key = "high" then some 3
  else if key = "very_high" || key = "veryhigh" then some 4
  else if key = "max" then some 5
  else none

/-- `enumLabelFor` from `z2madapter.cpp`. -/
def enumLabelFor (enumName : String) (value : Int) : String :=
  if ciEq enumName "RockerMode" then
    if value = 1 then "SingleRocker"
    else if value = 2 then "DualRocker"
    else if value = 3 then "SinglePush"
    else if value = 4 then "DualPush"
    else ""
  else if ciEq enumName "SensitivityLevel" then
    if value = 1 then "Low"
    else if value = 2 then "Medium"
    else if value = 3 then "High"
    else if value = 4 then "VeryHigh"
    else if value = 5 then "Max"
    else ""
  else ""

/-- `isKnownEnumName` from `z2madapter.cpp`. -/
def isKnownEnumName (name : String) (enumName : String) : Bool :=
  ciEq name enumName

/-! ### Expose compiler helpers -/

def intToStr (n : Int) : String := toString n

/-- ASCII upper-casing of the first character (`part[0].toUpper()`). -/
def charToUpper (c : Char) : Char :=
  if 'a' ≤ c ∧ c ≤ 'z' then Char.ofNat (c.toNat - 32) else c

def capitalizeFirst (s : String) : String :=
  match s.data with
  | [] => ""
  | c :: rest => String.mk (charToUpper c :: rest)

def splitOnCharAux (c : Char) : List Char → List Char → List (List Char)
  | [], acc => [acc.reverse]
  | x :: xs, acc =>
    if x = c then acc.reverse :: splitOnCharAux c xs []
    else splitOnCharAux c xs (x :: acc)

/-- `QString::split(sep, Qt::SkipEmptyParts)` is this plus a filter. -/
def splitOnChar (c : Char) (s : String) : List String :=
  (splitOnCharAux c s.data []).map String.mk

/-- `Z2mAdapter::labelFromProperty`. -/
def labelFromProperty (property : String) (fallback : String) : String :=
  if strTrim fallback ≠ "" then strTrim fallback
  else if property = "color_temp" then "Color Temperature"
  else if property = "co2" then "CO2"
  else
    let parts := (splitOnChar '_' property).filter (fun p => p ≠ "")
    String.intercalate " " (parts.map capitalizeFirst)

/-- `Z2mAdapter::inferDeviceClass`. -/
def inferDeviceClass (exposes : List (List (String × J))) : DeviceClass :=
  let scan := exposes.foldl
    (fun (acc : Bool × Bool × Bool × Bool) expose =>
      let property := (jLookup expose "property").toStringD ""
      if property = "brightness" || property = "color_temp"
          || property = "color" then
        (true, acc.2.1, acc.2.2.1, acc.2.2.2)
      else if property = "state" then
        (acc.1, true, acc.2.2.1, acc.2.2.2)
      else if property = "action" then
        (acc.1, acc.2.1, acc.2.2.1, true)
      else if property = "temperature" || property = "humidity"
          || property = "illuminance" || property = "illumination"
          || property = "occupancy" || property = "motion"
          || property = "co2" then
        (acc.1, acc.2.1, true, acc.2.2.2)
      else acc)
    (false, false, false, false)
  let hasLight := scan.1
  let hasSwitch := scan.2.1
  let hasSensor := scan.2.2.1
  let hasButton := scan.2.2.2
  if hasLight then .Light
  else if hasSwitch then .Switch
  else if hasButton then .Button
  else if hasSensor then .Sensor
  else .Unknown

/-- `Z2mAdapter::actionToButtonEvent`. -/
def actionToButtonEvent (action : String) : ButtonEventCode :=
  let value := strToLower action
  if strContainsStr value "double" then .DoublePress
  else if strContainsStr value "triple" then .TriplePress
  else if strContainsStr value "quad" then .QuadruplePress
  else if strContainsStr value "quint" then .QuintuplePress
  else if strContainsStr value "long_release"
      || strContainsStr value "hold_release" then .LongPressRelease
  else if strContainsStr value "release" then .ShortPressRelease
  else if strContainsStr value "hold" || strContainsStr value "long" then
    .LongPress
  else if strContainsStr value "single" || strContainsStr value "press" then
    .InitialPress
  else .None

/-- The static property-name table `kMappings` of `addChannelFromExpose`:
`(kind, dataType, unit, scalePercent)` per property. -/
def kMappings : List (String × (ChannelKind × ChannelDataType × String × Bool)) :=
  [("state", (.PowerOnOff, .Bool, "", false)),
   ("brightness", (.Brightness, .Float, "%", true)),
   ("color_temp", (.ColorTemperature, .Float, "mired", false)),
   ("color", (.ColorRGB, .Color, "", false)),
   ("temperature", (.Temperature, .Float, "C", false)),
   ("humidity", (.Humidity, .Float, "%", false)),
   ("illuminance", (.Illuminance, .Int, "lx", false)),
   ("illumination", (.AmbientLightLevel, .Enum, "", false)),
   ("occupancy", (.Motion, .Bool, "", false)),
   ("motion", (.Motion, .Bool, "", false)),
   ("battery", (.Battery, .Int, "%", false)),
   ("battery_low", (.Unknown, .Bool, "", false)),
   ("linkquality", (.LinkQuality, .Float, "%", false)),
   ("keep_time", (.Duration, .Int, "s", false)),
   ("tamper", (.Tamper, .Bool, "", false)),
   ("power", (.Power, .Float, "W", false)),
   ("voltage", (.Voltage, .Float, "V", false)),
   ("current", (.Current, .Float, "A", false)),
   ("energy", (.Energy, .Float, "kWh", false)),
   ("co2", (.CO2, .Float, "ppm", false)),
   ("action", (.ButtonEvent, .Int, "", false))]

/-- Sensor measurement kinds forced read-only on Sensor-class devices
(the `isSensorMeasurementKind` lambda). -/
def isSensorMeasurementKind (kind : ChannelKind) : Bool :=
  match kind with
  | .Temperature | .Humidity | .Illuminance | .CO2 | .Power | .Voltage
  | .Current | .Energy | .Battery | .Motion | .Tamper | .AmbientLightLevel
  | .LinkQuality | .SignalStrength | .ButtonEvent => true
  | _ => false

def writableSensorConfigTokens : List String :=
  ["calibration", "sensitivity", "threshold", "alarm", "keep_time",
   "interval", "unit", "mode"]

/-- One step of the `values` loop of `addChannelFromExpose`: extract the
raw key, update the normalized map for known enum names and the
all-numeric flag. -/
def collectEnumStep (enumName : String)
    (acc : List String × List (String × Int) × Bool) (val : J) :
    List String × List (String × Int) × Bool :=
  let key :=
    if val.isString then val.toStringD ""
    else if val.isDouble then intToStr (val.toIntD 0)
    else ""
  if key = "" then acc
  else
    let rawKeys := acc.1 ++ [key]
    let allNum := acc.2.2 && (qstringToInt key).isSome
    let normMap :=
      if enumName ≠ "" then
        if isKnownEnumName enumName "RockerMode" then
          match mapRockerMode key with
          | some m => mapInsert acc.2.1 key m
          | none => acc.2.1
        else if isKnownEnumName enumName "SensitivityLevel" then
          match mapSensitivityLevel key with
          | some m => mapInsert acc.2.1 key m
          | none => acc.2.1
        else acc.2.1
      else acc.2.1
    (rawKeys, normMap, allNum)

/-- Collect the enum raw keys, the normalized map for known enum names and
the all-numeric flag (first loop over `values` in `addChannelFromExpose`). -/
def collectEnumKeys (enumName : String) (values : List J) :
    List String × List (String × Int) × Bool :=
  values.foldl (collectEnumStep enumName) ([], [], !values.isEmpty)

/-- The all-numeric fallback map (`key.toInt()` for every raw key). -/
def numericFallbackMap (rawKeys : List String) : List (String × Int) :=
  rawKeys.foldl
    (fun m k =>
      match qstringToInt k with
      | some n => mapInsert m k n
      | none => m)
    []

/-- One step of the choices / enumRawToValue / enumValueToRaw loop. -/
def enumChoiceStep (enumName : String) (fallbackMap : List (String × Int))
    (acc : List AdapterConfigOption × List (String × Int) × List (Int × String))
    (k : String) :
    List AdapterConfigOption × List (String × Int) × List (Int × String) :=
  let mappedValue := mapGetD fallbackMap k 0
  if mappedValue = 0 then acc
  else
    let label0 := if enumName ≠ "" then enumLabelFor enumName mappedValue else ""
    let label := if label0 = "" then k else label0
    let opt : AdapterConfigOption := { value := intToStr mappedValue, label := label }
    (acc.1 ++ [opt], mapInsert acc.2.1 k mappedValue,
     if mapContains acc.2.2 mappedValue then acc.2.2
     else mapInsert acc.2.2 mappedValue k)

/-- The choices / enumRawToValue / enumValueToRaw construction loop. -/
def buildEnumChoices (enumName : String) (rawKeys : List String)
    (fallbackMap : List (String × Int)) :
    List AdapterConfigOption × List (String × Int) × List (Int × String) :=
  rawKeys.foldl (enumChoiceStep enumName fallbackMap) ([], [], [])

/-- The trimmed `property` of an expose node. -/
def exposeProperty (expose : List (String × J)) : String :=
  strTrim ((jLookup expose "property").toStringD "")

/-- The `min`/`max` helper-property test of `addChannelFromExpose`. -/
def exposeIsMinMaxHelper (expose : List (String × J)) : Bool :=
  let propLower := strToLower (exposeProperty expose)
  propLower = "min" || propLower = "max"
  || strStartsWith propLower "min_" || strStartsWith propLower "max_"
  || strEndsWith propLower "_min" || strEndsWith propLower "_max"

/-- The endpoint string of an expose node (string form, or
`QString::number` of the numeric form). -/
def exposeEndpoint (expose : List (String × J)) : String :=
  let endpointVal := jLookup expose "endpoint"
  if endpointVal.isString then strTrim (endpointVal.toStringD "")
  else if endpointVal.isDouble then intToStr (endpointVal.toIntD 0)
  else ""

/-- `channel_id = property` or `property + "_" + endpoint`. -/
def exposeChannelId (expose : List (String × J)) : String :=
  let endpoint := exposeEndpoint expose
  if endpoint = "" then exposeProperty expose
  else exposeProperty expose ++ "_" ++ endpoint

/-- The trimmed `type` of an expose node. -/
def exposeTypeStr (expose : List (String × J)) : String :=
  strTrim ((jLookup expose "type").toStringD "")

/-- The fixed enum name attached to special properties. -/
def exposeEnumName (expose : List (String × J)) : String :=
  let property := exposeProperty expose
  if property = "device_mode" then "RockerMode"
  else if property = "motion_sensitivity" || property = "sensitivity" then
    "SensitivityLevel"
  else ""

/-- `Z2mAdapter::addChannelFromExpose` (the expose compiler for a single
flattened expose node). -/
def addChannelFromExpose (expose : List (String × J)) (entry : Z2mDeviceEntry) :
    Z2mDeviceEntry :=
  let property := exposeProperty expose
  if property = "" then entry else
  let propLower := strToLower property
  if exposeIsMinMaxHelper expose then entry else
  let endpoint := exposeEndpoint expose
  let channelId := exposeChannelId expose
  if mapContains entry.bindingsByChannel channelId then entry else
  let mapIt := mapLookup kMappings property
  let exposeType := exposeTypeStr expose
  let isEnum := exposeType = "enum"
  let isBinary := exposeType = "binary"
  let isNumeric := exposeType = "numeric"
  if mapIt.isNone && !(isEnum || isBinary || isNumeric) then entry else
  let kind0 :=
    match mapIt with
    | some m => m.1
    | none => ChannelKind.Unknown
  let dataType0 :=
    match mapIt with
    | some m => m.2.1
    | none =>
      if isEnum then ChannelDataType.Enum
      else if isBinary then ChannelDataType.Bool
      else ChannelDataType.Float
  let unit0 :=
    match mapIt with
    | some m => m.2.2.1
    | none => ""
  let dataType1 := if isEnum then ChannelDataType.Enum else dataType0
  let access := (jLookup expose "access").toIntD kAccessState
  let flags0 := flagsFromAccess access
  let sensorConfigWritable :=
    writableSensorConfigTokens.any (fun token => strContainsStr propLower token)
  let flags1 :=
    if entry.device.deviceClass = DeviceClass.Sensor then
      let fa := if isSensorMeasurementKind kind0 then forceReadOnly flags0 else flags0
      if kind0 = ChannelKind.Unknown && ! sensorConfigWritable then forceReadOnly fa
      else fa
    else flags0
  let rawMin0 := (jLookup expose "value_min").toDoubleD 0
  let rawMax0 := (jLookup expose "value_max").toDoubleD 0
  let rawStep := (jLookup expose "value_step").toDoubleD 1
  let (rawMin, rawMax) :=
    if kind0 = ChannelKind.Brightness ∧ rawMax0 ≤ rawMin0 then ((0 : ℚ), (254 : ℚ))
    else (rawMin0, rawMax0)
  let (minV0, maxV0, stepV0) :=
    if kind0 = ChannelKind.Brightness then
      ((0 : ℚ), (100 : ℚ),
        if rawMin < rawMax ∧ 0 < rawStep then rawStep / (rawMax - rawMin) * 100
        else (1 : ℚ))
    else if kind0 = ChannelKind.LinkQuality then ((0 : ℚ), (100 : ℚ), (1 : ℚ))
    else if kind0 = ChannelKind.Battery ∧ dataType1 = ChannelDataType.Int then
      ((0 : ℚ), if 0 < rawMax then rawMax else 100,
        if 0 < rawStep then rawStep else 1)
    else if dataType1 = ChannelDataType.Float ∨ dataType1 = ChannelDataType.Int then
      (rawMin, rawMax, rawStep)
    else ((0 : ℚ), (0 : ℚ), (0 : ℚ))
  let enumName := exposeEnumName expose
  let values := (jLookup expose "values").toArrayD
  let collected := collectEnumKeys enumName values
  let rawKeys := collected.1
  let normalizedMap := collected.2.1
  let allNumericEnumValues := collected.2.2
  let enumMapObj : List (String × J) :=
    normalizedMap.map (fun p => (p.1, J.jNum (p.2 : ℚ)))
  let fallbackMap :=
    if isEnum then
      if allNumericEnumValues then numericFallbackMap rawKeys
      else buildStableEnumMap rawKeys enumMapObj
    else []
  let meta0 : List (String × J) := []
  let meta1 :=
    if isEnum ∧ enumName ≠ "" then mapInsert meta0 "enumName" (J.jStr enumName)
    else meta0
  let meta2 :=
    if isEnum ∧ fallbackMap ≠ [] then
      mapInsert meta1 "enumMap"
        (J.jObj (fallbackMap.map (fun p => (p.1, J.jNum (p.2 : ℚ)))))
    else meta1
  let enumBuilt :=
    if isEnum then buildEnumChoices enumName rawKeys fallbackMap else ([], [], [])
  let choices := enumBuilt.1
  let enumRawToValue := enumBuilt.2.1
  let enumValueToRaw := enumBuilt.2.2
  let exposeUnit := strTrim ((jLookup expose "unit").toStringD "")
  let unit1 := if unit0 = "" ∧ exposeUnit ≠ "" then exposeUnit else unit0
  let isVoltageMv := kind0 = ChannelKind.Voltage ∧ exposeUnit = "mV"
  let (unit2, minV, maxV, stepV) :=
    if isVoltageMv then
      ("V", minV0 / 1000, maxV0 / 1000,
        if 0 < stepV0 then stepV0 / 1000 else stepV0)
    else (unit1, minV0, maxV0, stepV0)
  let channel : Channel :=
    { id := channelId,
      name := labelFromProperty property ((jLookup expose "label").toStringD ""),
      kind := kind0, dataType := dataType1, flags := flags1, unit := unit2,
      minValue := minV, maxValue := maxV, stepValue := stepV,
      meta := meta2, choices := choices }
  let features := (jLookup expose "features").toArrayD
  let colorScan := features.foldl
    (fun (acc : Bool × Bool × Bool × Bool) featureVal =>
      if ! featureVal.isObject then acc
      else
        let fprop := strTrim ((jLookup featureVal.toObjectD "property").toStringD "")
        if fprop = "x" then (true, acc.2.1, acc.2.2.1, acc.2.2.2)
        else if fprop = "y" then (acc.1, true, acc.2.2.1, acc.2.2.2)
        else if fprop = "hue" || fprop = "h" then (acc.1, acc.2.1, true, acc.2.2.2)
        else if fprop = "saturation" || fprop = "s" then
          (acc.1, acc.2.1, acc.2.2.1, true)
        else acc)
    (false, false, false, false)
  let colorMode :=
    if kind0 = ChannelKind.ColorRGB then
      if colorScan.1 && colorScan.2.1 then "xy"
      else if colorScan.2.2.1 && colorScan.2.2.2 then "hs"
      else "xy"
    else ""
  let binding : Z2mChannelBinding :=
    { channelId := channelId, property := property, kind := kind0,
      dataType := dataType1, flags := flags1, unit := unit2,
      rawMin := rawMin, rawMax := rawMax, rawStep := rawStep,
      scalePercent :=
        (match mapIt with
         | some m => m.2.2.2
         | none => false),
      valueScale :=
        if isVoltageMv then 1/1000
        else if kind0 = ChannelKind.LinkQuality then 100/255
        else 1,
      endpoint := endpoint,
      valueOn :=
        if kind0 = ChannelKind.PowerOnOff then
          (jLookup expose "value_on").toStringD ""
        else "",
      valueOff :=
        if kind0 = ChannelKind.PowerOnOff then
          (jLookup expose "value_off").toStringD ""
        else "",
      colorMode := colorMode,
      isAvailability := false,
      enumRawToValue := enumRawToValue,
      enumValueToRaw := enumValueToRaw }
  { entry with
    channels := entry.channels ++ [channel],
    bindingsByChannel := mapInsert entry.bindingsByChannel channelId binding,
    channelByProperty := entry.channelByProperty ++ [(property, channelId)] }

/-! ### Runtime model: QVariant, events, adapter state -/

/-- `phicore::Color` (sRGB components). -/
structure ColorV where
  r : ℚ := 0
  g : ℚ := 0
  b : ℚ := 0
deriving DecidableEq, Repr

/-- `phicore::Hsv`. -/
structure Hsv where
  hDeg : ℚ := 0
  s : ℚ := 0
  v : ℚ := 0
deriving DecidableEq, Repr

/-- External library functions called by the adapter whose implementations
live outside this repository: the phi color conversions (`color.h`, which
use floating-point gamma curves) and `QDateTime::fromString(Qt::ISODate)`.
The embedding is parametric in them; every theorem below holds for all
implementations. -/
structure ExternOracle where
  colorFromXy : ℚ → ℚ → ℚ → ColorV
  hsvToColor : ℚ → ℚ → ℚ → ColorV
  colorToXy : ColorV → ℚ × ℚ
  colorToHsv : ColorV → Hsv
  parseIsoDateMs : String → Option Int

/-- A trivial oracle instantiation for concrete witnesses. -/
def trivialOracle : ExternOracle :=
  { colorFromXy := fun _ _ _ => {}, hsvToColor := fun _ _ _ => {},
    colorToXy := fun _ => (0, 0), colorToHsv := fun _ => {},
    parseIsoDateMs := fun _ => none }

/-- Model of `QVariant` for the values the adapter passes around. -/
inductive Val where
  | vInvalid
  | vBool (b : Bool)
  | vInt (n : Int)
  | vNum (q : ℚ)
  | vStr (s : String)
  | vColor (c : ColorV)
  | vObj (fields : List (String × J))
deriving Repr

/-- `QVariant::typeId()` is Int / LongLong / Double. -/
def Val.typeIsNumeric : Val → Bool
  | .vInt _ => true
  | .vNum _ => true
  | _ => false

/-- `QVariant::toInt`. -/
def Val.toIntV : Val → Int
  | .vInt n => n
  | .vNum q => qRoundQ q
  | .vBool b => if b then 1 else 0
  | .vStr s => (qstringToInt s).getD 0
  | _ => 0

/-- `QVariant::toBool`. -/
def Val.toBoolV : Val → Bool
  | .vBool b => b
  | .vInt n => n ≠ 0
  | .vNum q => q ≠ 0
  | .vStr s => ! (s = "" || s = "0" || strToLower s = "false")
  | _ => false

/-- `QVariant::toDouble`. -/
def Val.toDoubleV : Val → ℚ
  | .vNum q => q
  | .vInt n => (n : ℚ)
  | .vBool b => if b then 1 else 0
  | .vStr s => (((qstringToInt s).getD 0 : Int) : ℚ)
  | _ => 0

/-- `QVariant::toString`. Non-integral doubles are only reached behind the
numeric `typeId` short-circuits in the adapter, so their exact decimal
formatting is not modelled. -/
def Val.toStringV : Val → String
  | .vStr s => s
  | .vBool b => if b then "true" else "false"
  | .vInt n => intToStr n
  | .vNum q => if q.den = 1 then intToStr q.num else ""
  | _ => ""

/-- `QVariant::canConvert<phicore::Color>()`. -/
def Val.canConvertColor : Val → Bool
  | .vColor _ => true
  | _ => false

/-- `QVariant::value<phicore::Color>()`. -/
def Val.getColor : Val → ColorV
  | .vColor c => c
  | _ => {}

/-- Host-facing signals and MQTT client calls, collected in emission
order. -/
inductive Event where
  | cmdResult (id : Nat) (status : CmdStatus) (error : String)
  | actionResult (id : Nat) (status : CmdStatus) (error : String)
  | deviceUpdated (device : Device) (channels : List Channel)
  | deviceRemoved (deviceId : String)
  | channelStateUpdated (externalId : String) (channelId : String)
      (value : Val) (tsMs : Int)
  | adapterMetaUpdated (patch : List (String × J))
  | fullSyncCompleted
  | connectionStateChanged (connected : Bool)
  | publish (topic : String) (payload : J)
  | subscribe (topicFilter : String)
deriving Repr

/-- `MqttClient::State`. -/
inductive MqttState where
  | Disconnected | Connecting | Connected
deriving DecidableEq, Repr

/-- `Z2mAdapter::PendingRename`. -/
structure PendingRename where
  cmdId : Nat := 0
  targetName : String := ""
  requestedAtMs : Int := 0
deriving Repr

/-- The adapter's mutable state (fields of `Z2mAdapter` plus the model of
its MQTT client and timers). `publishOk` is the oracle for the result of
`MqttClient::publish`; timers are modelled as armed flags whose expiry is
a separate input. -/
structure AdapterState where
  client : Bool := false
  clientState : MqttState := .Disconnected
  publishOk : Bool := true
  reconnectTimerActive : Bool := false
  connected : Bool := false
  mqttConnected : Bool := false
  bridgeOnline : Bool := true
  lastSeenRequested : Bool := false
  pendingFullSync : Bool := false
  retryIntervalMs : Int := 10000
  baseTopic : String := "zigbee2mqtt"
  devices : List (String × Z2mDeviceEntry) := []
  mqttByExternal : List (String × String) := []
  pendingRename : List (String × PendingRename) := []
  pendingStatePayloads : List (String × List (String × J)) := []
  postSetRefreshArmed : List String := []
  coordinatorId : String := ""
  pendingBridgeInfo : List (String × J) := []
  ipConfigured : Bool := true
deriving Repr

/-- The freshly constructed adapter (member initializers of `Z2mAdapter`). -/
def initialState : AdapterState := {}

/-! ### Connection state machine (`setConnected`, `updateConnectionState`,
reconnect handling) -/

/-- `Z2mAdapter::setConnected`. -/
def setConnected (st : AdapterState) (connected : Bool) :
    AdapterState × List Event :=
  if st.connected = connected then (st, [])
  else
    let st1 := { st with connected := connected }
    let st2 :=
      if connected then { st1 with reconnectTimerActive := false } else st1
    (st2, [Event.connectionStateChanged connected])

/-- `Z2mAdapter::updateConnectionState`. -/
def updateConnectionState (st : AdapterState) : AdapterState × List Event :=
  setConnected st (st.mqttConnected && st.bridgeOnline)

/-- `Z2mAdapter::connectToBroker` (the client's transition to Connecting). -/
def connectToBroker (st : AdapterState) : AdapterState :=
  if ! st.client then st
  else if st.clientState = .Connected ∨ st.clientState = .Connecting then st
  else if ! st.ipConfigured then st
  else { st with clientState := .Connecting }

/-- `Z2mAdapter::disconnectFromBroker`. -/
def disconnectFromBroker (st : AdapterState) : AdapterState :=
  if st.client ∧ (st.clientState = .Connected ∨ st.clientState = .Connecting)
  then { st with clientState := .Disconnected }
  else st

/-- `Z2mAdapter::scheduleReconnect`. -/
def scheduleReconnect (st : AdapterState) : AdapterState :=
  if st.retryIntervalMs ≤ 0 then st
  else { st with reconnectTimerActive := true }

/-- `Z2mAdapter::stop` (reconnect timer and post-set timers cancelled,
client destroyed, connection state recomputed). -/
def stopAdapter (st : AdapterState) : AdapterState × List Event :=
  let st1 := { st with reconnectTimerActive := false }
  let st2 := disconnectFromBroker st1
  let st3 := { st2 with postSetRefreshArmed := [] }
  let st4 := { st3 with client := false }
  let st5 := { st4 with mqttConnected := false }
  updateConnectionState st5

/-- The `MqttClient::connected` callback of `start()`: subscribe and
request bridge info. -/
def onMqttConnected (st : AdapterState) : AdapterState × List Event :=
  let st0 := { st with clientState := .Connected, mqttConnected := true }
  let (st1, evs) := updateConnectionState st0
  let subEvs :=
    if st1.client ∧ st1.clientState = .Connected then
      [Event.subscribe (st1.baseTopic ++ "/#")]
    else []
  let pubEvs :=
    [Event.publish (st1.baseTopic ++ "/bridge/request/info") (J.jObj [])]
  (st1, evs ++ subEvs ++ pubEvs)

/-- The `MqttClient::disconnected` callback of `start()`. -/
def onMqttDisconnected (st : AdapterState) : AdapterState × List Event :=
  let st0 := { st with clientState := .Disconnected, mqttConnected := false }
  let (st1, evs) := updateConnectionState st0
  (scheduleReconnect st1, evs)

/-- Expiry of the repeating reconnect timer. -/
def reconnectFire (st : AdapterState) : AdapterState :=
  if st.reconnectTimerActive then connectToBroker st else st

/-- Expiry of the single-shot post-set refresh timer for `mqttId`. -/
def postSetRefreshFire (st : AdapterState) (mqttId : String) :
    AdapterState × List Event :=
  if mqttId ∈ st.postSetRefreshArmed then
    let st' := { st with
      postSetRefreshArmed := st.postSetRefreshArmed.filter (fun x => x ≠ mqttId) }
    if st'.client ∧ st'.clientState = .Connected then
      (st', [Event.publish (st'.baseTopic ++ "/" ++ mqttId ++ "/get")
        (J.jObj [])])
    else (st', [])
  else (st, [])

/-! ### State ingest (`handleDeviceStatePayload`, decode switch) -/

/-- The per-kind decode switch of `handleDeviceStatePayload` (the body of
the second bindings loop); `none` models an invalid `outValue`, which is
skipped. -/
def decodeStateValue (o : ExternOracle) (binding : Z2mChannelBinding)
    (value : J) : Option Val :=
  match binding.kind with
  | .PowerOnOff =>
    match value with
    | .jBool b => some (.vBool b)
    | .jStr state =>
      if binding.valueOn ≠ "" ∨ binding.valueOff ≠ "" then
        some (.vBool (ciEq state binding.valueOn))
      else some (.vBool (ciEq state "ON"))
    | .jNum q => some (.vBool (decide (q ≠ 0)))
    | _ => none
  | .Brightness =>
    some (.vNum (scaleToPercent (value.toDoubleD 0) binding.rawMin binding.rawMax))
  | .ColorTemperature => some (.vNum (value.toDoubleD 0))
  | .ColorRGB =>
    match value with
    | .jObj colorObj =>
      if binding.colorMode = "xy" then
        some (.vColor (o.colorFromXy ((jLookup colorObj "x").toDoubleD 0)
          ((jLookup colorObj "y").toDoubleD 0) 1))
      else if binding.colorMode = "hs" then
        let h := (jLookup colorObj "hue").toDoubleD
          ((jLookup colorObj "h").toDoubleD 0)
        let s := (jLookup colorObj "saturation").toDoubleD
          ((jLookup colorObj "s").toDoubleD 0)
        some (.vColor (o.hsvToColor h (s / 100) 1))
      else none
    | _ => none
  | .Temperature | .Humidity | .Illuminance | .CO2 | .Power | .Voltage
  | .Current | .Energy =>
    some (.vNum ((value.toDoubleD 0) * binding.valueScale))
  | .AmbientLightLevel =>
    match value with
    | .jStr raw =>
      if binding.enumRawToValue ≠ [] then
        match mapLookup binding.enumRawToValue raw with
        | some v => some (.vInt v)
        | none => some (.vStr raw)
      else some (.vStr raw)
    | .jNum _ => some (.vInt (value.toIntD 0))
    | _ => none
  | .Duration => some (.vInt (value.toIntD 0))
  | .SignalStrength => some (.vInt (value.toIntD 0))
  | .LinkQuality =>
    some (.vNum (qBound 0 ((value.toDoubleD 0) * binding.valueScale) 100))
  | .Motion =>
    match value with
    | .jBool b => some (.vBool b)
    | .jStr s =>
      let state := strToLower s
      some (.vBool (state = "true" || state = "on" || state = "occupied"))
    | .jNum q => some (.vBool (decide (q ≠ 0)))
    | _ => none
  | .Battery => some (.vInt (value.toIntD 0))
  | .ButtonEvent =>
    match value with
    | .jStr s => some (.vInt (actionToButtonEvent s).toInt)
    | _ => none
  | .Unknown =>
    if binding.dataType = .Bool then
      match value with
      | .jBool b => some (.vBool b)
      | .jNum q => some (.vBool (decide (q ≠ 0)))
      | .jStr s => some (.vBool (strToLower s = "true"))
      | _ => none
    else if binding.dataType = .Int then some (.vInt (value.toIntD 0))
    else if binding.dataType = .Float then
      some (.vNum ((value.toDoubleD 0) * binding.valueScale))
    else if binding.dataType = .Enum then
      match value with
      | .jStr raw =>
        if binding.enumRawToValue ≠ [] then
          match mapLookup binding.enumRawToValue raw with
          | some v => some (.vInt v)
          | none => some (.vStr raw)
        else some (.vStr raw)
      | .jNum _ => some (.vInt (value.toIntD 0))
      | _ => none
    else none
  | _ => none

/-- The `device_software_update` payload built from an `update` object
(`QString::number(x, 'f', 0)` is modelled as rounding to an integer). -/
def softwareUpdatePayload (updateObj : List (String × J)) : List (String × J) :=
  let status := (jLookup updateObj "state").toStringD ""
  let currentVersion :=
    if jContains updateObj "installed_version" then
      intToStr (qRoundQ ((jLookup updateObj "installed_version").toDoubleD 0))
    else ""
  let targetVersion :=
    if jContains updateObj "latest_version" then
      intToStr (qRoundQ ((jLookup updateObj "latest_version").toDoubleD 0))
    else ""
  let p0 : List (String × J) := []
  let p1 := if status ≠ "" then mapInsert p0 "status" (J.jStr status) else p0
  let p2 :=
    if currentVersion ≠ "" then mapInsert p1 "currentVersion" (J.jStr currentVersion)
    else p1
  if targetVersion ≠ "" then mapInsert p2 "targetVersion" (J.jStr targetVersion)
  else p2

/-- `last_seen` JSON value to epoch milliseconds (numeric heuristics of the
source; ISO strings via the oracle). -/
def lastSeenMsFromValue (o : ExternOracle) (val : J) : Int :=
  if val.isDouble then
    let raw := val.toDoubleD 0
    if raw > 1000000000000 then ratTrunc raw
    else if raw > 0 then ratTrunc (raw * 1000)
    else 0
  else if val.isString then
    match o.parseIsoDateMs (val.toStringD "") with
    | some ms => ms
    | none => 0
  else 0

def kStaleThresholdMs : Int := 5 * 60 * 1000

/-- `Z2mAdapter::handleDeviceStatePayload`. -/
def handleDeviceStatePayload (o : ExternOracle) (st : AdapterState)
    (deviceId : String) (payload : List (String × J)) (tsMs : Int) :
    AdapterState × List Event :=
  match mapLookup st.devices deviceId with
  | none =>
    ({ st with pendingStatePayloads :=
        mapInsert st.pendingStatePayloads deviceId payload }, [])
  | some entry0 =>
    let (entry1, metaChanged1) :=
      if jContains payload "update" ∧ (jLookup payload "update").isObject then
        ({ entry0 with device := { entry0.device with
            meta := mapInsert entry0.device.meta "update"
              (J.jObj (jLookup payload "update").toObjectD) } }, true)
      else (entry0, false)
    let (entry2, metaChanged2, conn1, connUp1) :=
      if jContains payload "last_seen" then
        let lastSeenValue := jLookup payload "last_seen"
        let entry' := { entry1 with device := { entry1.device with
          meta := mapInsert entry1.device.meta "last_seen" lastSeenValue } }
        let lastSeenMs := lastSeenMsFromValue o lastSeenValue
        if lastSeenMs > 0 then
          (entry', true,
            (if tsMs - lastSeenMs > kStaleThresholdMs then
              ConnectivityStatus.Disconnected
            else ConnectivityStatus.Connected), true)
        else (entry', true, ConnectivityStatus.Unknown, false)
      else (entry1, metaChanged1, ConnectivityStatus.Unknown, false)
    let metaChanged := metaChanged1 || metaChanged2
    let (conn2, connUp2) :=
      if jContains payload "availability" then
        let availabilityValue := jLookup payload "availability"
        let state0 := strToLower (strTrim (availabilityValue.toStringD ""))
        let state :=
          if state0 = "" ∧ availabilityValue.isObject then
            strToLower (strTrim
              ((jLookup availabilityValue.toObjectD "state").toStringD ""))
          else state0
        if state = "online" then (ConnectivityStatus.Connected, true)
        else if state = "offline" then (ConnectivityStatus.Disconnected, true)
        else (conn1, connUp1)
      else (conn1, connUp1)
    let (connectivityStatus, connectivityUpdated) : ConnectivityStatus × Bool :=
      if connUp2 = false ∧ payload.isEmpty = false then
        (ConnectivityStatus.Connected, true)
      else (conn2, connUp2)
    let entry := entry2
    let externalId := entry.device.id
    let st' := { st with devices := mapInsert st.devices deviceId entry }
    let metaEvs :=
      if metaChanged then [Event.deviceUpdated entry.device entry.channels]
      else []
    let availEvs :=
      match entry.bindingsByChannel.find? (fun p => p.2.isAvailability) with
      | some p =>
        if connectivityUpdated then
          [Event.channelStateUpdated externalId p.2.channelId
            (.vInt connectivityStatus.toInt) tsMs]
        else []
      | none => []
    let chanEvs := entry.bindingsByChannel.foldl
      (fun (evs : List Event) (pb : String × Z2mChannelBinding) =>
        let binding := pb.2
        if binding.isAvailability then evs
        else if binding.channelId = "device_software_update" then
          match jLookup payload "update" with
          | .jObj updateObj =>
            evs ++ [Event.channelStateUpdated externalId binding.channelId
              (.vObj (softwareUpdatePayload updateObj)) tsMs]
          | _ => evs
        else
          let value := jLookup payload binding.property
          if value.isUndefined then evs
          else
            match decodeStateValue o binding value with
            | some out =>
              evs ++ [Event.channelStateUpdated externalId binding.channelId
                out tsMs]
            | none => evs)
      []
    (st', metaEvs ++ availEvs ++ chanEvs)

/-- `Z2mAdapter::handleAvailabilityPayload` (no state change, only an
emission on the implicit connectivity channel). -/
def handleAvailabilityPayload (st : AdapterState) (deviceId : String)
    (payload : String) (tsMs : Int) : List Event :=
  match mapLookup st.devices deviceId with
  | none => []
  | some entry =>
    match entry.bindingsByChannel.find? (fun p => p.2.isAvailability) with
    | none => []
    | some p =>
      let state := strToLower (strTrim payload)
      let status :=
        if state = "online" then ConnectivityStatus.Connected
        else if state = "offline" then ConnectivityStatus.Disconnected
        else ConnectivityStatus.Unknown
      [Event.channelStateUpdated entry.device.id p.2.channelId
        (.vInt status.toInt) tsMs]

/-- `Z2mAdapter::handleBridgeInfoPayload`. -/
def handleBridgeInfoPayload (st : AdapterState) (payload : List (String × J))
    (tsMs : Int) : AdapterState × List Event :=
  if st.coordinatorId = "" then
    ({ st with pendingBridgeInfo := payload }, [])
  else
    let coordinatorMqttId := mapGetD st.mqttByExternal st.coordinatorId
      st.coordinatorId
    match mapLookup st.devices coordinatorMqttId with
    | none => ({ st with pendingBridgeInfo := payload }, [])
    | some entry =>
      let coordinator := (jLookup payload "coordinator").toObjectD
      let coordinatorMeta := (jLookup coordinator "meta").toObjectD
      let manufacturer := (jLookup coordinatorMeta "manufacturer").toStringD ""
      let d1 :=
        if manufacturer ≠ "" then
          { entry.device with manufacturer := manufacturer }
        else entry.device
      let model := (jLookup coordinatorMeta "model").toStringD ""
      let d2 := if model ≠ "" then { d1 with model := model } else d1
      let firmware0 := (jLookup coordinatorMeta "revision").toStringD ""
      let firmware1 :=
        if firmware0 = "" then (jLookup coordinatorMeta "firmware").toStringD ""
        else firmware0
      let firmware :=
        if firmware1 = "" then (jLookup coordinatorMeta "version").toStringD ""
        else firmware1
      let d3 := if firmware ≠ "" then { d2 with firmware := firmware } else d2
      let d4 := { d3 with deviceClass := DeviceClass.Gateway }
      let meta1 := mapInsert d4.meta "coordinator" (J.jObj coordinator)
      let config := (jLookup payload "config").toObjectD
      let serial := (jLookup config "serial").toObjectD
      let serialPort := strTrim ((jLookup serial "port").toStringD "")
      let meta2 :=
        if serialPort ≠ "" then mapInsert meta1 "serial_port" (J.jStr serialPort)
        else meta1
      let serialAdapter := strTrim ((jLookup serial "adapter").toStringD "")
      let meta3 :=
        if serialAdapter ≠ "" then
          mapInsert meta2 "serial_adapter" (J.jStr serialAdapter)
        else meta2
      let z2mVersion := (jLookup payload "version").toStringD ""
      let z2mCommit := (jLookup payload "commit").toStringD ""
      let updated := { d4 with meta := meta3 }
      let entry' := { entry with device := updated }
      let st' := { st with
        devices := mapInsert st.devices coordinatorMqttId entry' }
      let evs1 := [Event.deviceUpdated entry'.device entry'.channels]
      let mp1 : List (String × J) := [("bridge_info", J.jObj payload)]
      let mp2 :=
        if z2mVersion ≠ "" then mapInsert mp1 "z2m_version" (J.jStr z2mVersion)
        else mp1
      let mp3 :=
        if z2mCommit ≠ "" then mapInsert mp2 "z2m_commit" (J.jStr z2mCommit)
        else mp2
      let mp4 :=
        if jContains payload "permit_join" then
          mapInsert mp3 "permit_join" (jLookup payload "permit_join")
        else mp3
      let mp5 :=
        if jContains payload "log_level" then
          mapInsert mp4 "log_level" (jLookup payload "log_level")
        else mp4
      let evs2 := [Event.adapterMetaUpdated mp5]
      let evs3 :=
        if st'.mqttConnected ∧ st'.bridgeOnline then
          match entry'.bindingsByChannel.find? (fun p => p.2.isAvailability) with
          | some p =>
            [Event.channelStateUpdated st'.coordinatorId p.2.channelId
              (.vInt ConnectivityStatus.Connected.toInt) tsMs]
          | none => []
        else []
      let evs4 :=
        match jLookup payload "update" with
        | .jObj updateObj =>
          let status := (jLookup updateObj "state").toStringD ""
          let targetVersion := (jLookup updateObj "version").toStringD ""
          let up0 : List (String × J) := []
          let up1 :=
            if status ≠ "" then mapInsert up0 "status" (J.jStr status) else up0
          let up2 :=
            if targetVersion ≠ "" then
              mapInsert up1 "targetVersion" (J.jStr targetVersion)
            else up1
          match mapLookup entry'.bindingsByChannel "device_software_update" with
          | some b =>
            [Event.channelStateUpdated st'.coordinatorId b.channelId
              (.vObj up2) tsMs]
          | none => []
        | _ => []
      (st', evs1 ++ evs2 ++ evs3 ++ evs4)

/-! ### Device registry (`buildDeviceEntry`, `collectExposeEntries`,
`handleBridgeDevicesPayload`) -/

theorem sizeOf_jLookup_lt (fields : List (String × J)) (k : String) :
    sizeOf (jLookup fields k) < sizeOf (J.jObj fields) := by
  induction fields with
  | nil => simp [jLookup]
  | cons hd tl ih =>
    obtain ⟨k1, v1⟩ := hd
    simp only [jLookup]
    by_cases hk : k1 = k
    · rw [if_pos hk]
      simp
      omega
    · rw [if_neg hk]
      simp at ih ⊢
      omega

/-- `Z2mAdapter::collectExposeEntries`: depth-first collection of the
expose objects carrying a property; a composite `color` node is recorded
without recursing into its features. -/
def collectExposeEntries : J → List (List (String × J))
  | .jArr xs => (xs.attach.map (fun x => collectExposeEntries x.1)).flatten
  | .jObj fields =>
    let property := strTrim ((jLookup fields "property").toStringD "")
    let ty := strTrim ((jLookup fields "type").toStringD "")
    let self : List (List (String × J)) := if property ≠ "" then [fields] else []
    if property ≠ "" ∧ property = "color" ∧ ty = "composite" then self
    else
      self ++
        (match hfeat : jLookup fields "features" with
         | .jArr fs => (fs.attach.map (fun f => collectExposeEntries f.1)).flatten
         | _ => [])
  | _ => []
termination_by j => sizeOf j
decreasing_by
  · have := List.sizeOf_lt_of_mem x.2
    simp at this ⊢
    omega
  · have h1 := List.sizeOf_lt_of_mem f.2
    have h2 := sizeOf_jLookup_lt fields "features"
    rw [hfeat] at h2
    simp at h1 h2 ⊢
    omega

/-- `Z2mAdapter::buildDeviceEntry`. -/
def buildDeviceEntry (obj : List (String × J)) : Z2mDeviceEntry :=
  let mqttId := strTrim ((jLookup obj "friendly_name").toStringD "")
  let powerSource := (jLookup obj "power_source").toStringD ""
  let defObj := (jLookup obj "definition").toObjectD
  let device0 : Device :=
    { name := mqttId, flagWireless := true,
      flagBattery := ciEq powerSource "Battery" }
  let device1 :=
    if defObj.isEmpty = false then
      let model := (jLookup defObj "model").toStringD ""
      let meta0 := mapInsert device0.meta "description"
        (J.jStr ((jLookup defObj "description").toStringD ""))
      let meta1 :=
        if strTrim model ≠ "" then
          mapInsert meta0 "iconUrl"
            (J.jStr ("https://www.zigbee2mqtt.io/images/devices/"
              ++ strTrim model ++ ".png"))
        else meta0
      { device0 with
        model := model
        manufacturer := (jLookup defObj "vendor").toStringD ""
        meta := meta1 }
    else device0
  let meta2 := mapInsert device1.meta "friendly_name" (J.jStr mqttId)
  let ieeeAddress := strTrim ((jLookup obj "ieee_address").toStringD "")
  let meta3 :=
    if ieeeAddress ≠ "" then
      mapInsert meta2 "ieee_address" (J.jStr ieeeAddress)
    else meta2
  let deviceType := (jLookup obj "type").toStringD ""
  let meta4 := mapInsert meta3 "type" (J.jStr deviceType)
  let modelId := (jLookup obj "model_id").toStringD ""
  let meta5 :=
    if modelId ≠ "" then mapInsert meta4 "model_id" (J.jStr modelId) else meta4
  let meta6 :=
    if powerSource ≠ "" then
      mapInsert meta5 "power_source" (J.jStr powerSource)
    else meta5
  let manufacturer := (jLookup obj "manufacturer").toStringD ""
  let meta7 :=
    if manufacturer ≠ "" then
      mapInsert meta6 "manufacturer" (J.jStr manufacturer)
    else meta6
  let softwareBuild := (jLookup obj "software_build_id").toStringD ""
  let meta8 :=
    if softwareBuild ≠ "" then
      mapInsert meta7 "software_build_id" (J.jStr softwareBuild)
    else meta7
  let dateCode := (jLookup obj "date_code").toStringD ""
  let meta9 :=
    if dateCode ≠ "" then mapInsert meta8 "date_code" (J.jStr dateCode)
    else meta8
  let device2 := { device1 with
    meta := meta9
    id := if ieeeAddress ≠ "" then ieeeAddress else mqttId }
  let device3 :=
    if ciEq deviceType "Coordinator" then
      { device2 with
        deviceClass := DeviceClass.Gateway
        meta := mapInsert device2.meta "coordinator" (J.jBool true) }
    else device2
  let meta10 :=
    if jContains obj "interview_completed" then
      mapInsert device3.meta "interview_completed"
        (jLookup obj "interview_completed")
    else device3.meta
  let meta11 :=
    if jContains obj "interviewing" then
      mapInsert meta10 "interviewing" (jLookup obj "interviewing")
    else meta10
  let meta12 :=
    if jContains obj "supported" then
      mapInsert meta11 "supported" (jLookup obj "supported")
    else meta11
  let meta13 :=
    if jContains obj "disabled" then
      mapInsert meta12 "disabled" (jLookup obj "disabled")
    else meta12
  let availabilityValue := jLookup obj "availability"
  let availabilityState0 := strTrim (availabilityValue.toStringD "")
  let availabilityState :=
    if availabilityState0 = "" ∧ availabilityValue.isObject then
      strTrim ((jLookup availabilityValue.toObjectD "state").toStringD "")
    else availabilityState0
  let meta14 :=
    if availabilityState ≠ "" then
      mapInsert meta13 "availability" (J.jStr availabilityState)
    else meta13
  let device4 := { device3 with meta := meta14 }
  let exposes :=
    if jContains defObj "exposes" then
      collectExposeEntries (jLookup defObj "exposes")
    else []
  let device5 := { device4 with deviceClass := inferDeviceClass exposes }
  let entry0 : Z2mDeviceEntry := { device := device5, mqttId := mqttId }
  let entry1 := exposes.foldl (fun e expose => addChannelFromExpose expose e)
    entry0
  let availability : Channel :=
    { id := "connectivity", name := "Connectivity",
      kind := ChannelKind.ConnectivityStatus,
      dataType := ChannelDataType.Enum,
      flags := ChannelFlagDefaultRead }
  let availabilityBinding : Z2mChannelBinding :=
    { channelId := availability.id, property := "availability",
      kind := availability.kind, dataType := availability.dataType,
      flags := availability.flags, isAvailability := true }
  let entry2 := { entry1 with
    channels := entry1.channels ++ [availability],
    bindingsByChannel := mapInsert entry1.bindingsByChannel availability.id
      availabilityBinding,
    channelByProperty := entry1.channelByProperty
      ++ [(availabilityBinding.property, availability.id)] }
  let updateChannel : Channel :=
    { id := "device_software_update", name := "Firmware Update",
      kind := ChannelKind.DeviceSoftwareUpdate,
      dataType := ChannelDataType.Enum,
      flags := ChannelFlagDefaultRead }
  let updateBinding : Z2mChannelBinding :=
    { channelId := updateChannel.id, property := "update",
      kind := updateChannel.kind, dataType := updateChannel.dataType,
      flags := updateChannel.flags }
  { entry2 with
    channels := entry2.channels ++ [updateChannel],
    bindingsByChannel := mapInsert entry2.bindingsByChannel updateChannel.id
      updateBinding }

/-- Extract an availability string from a `bridge/devices` entry value
(string form or `{"state": ...}` form). -/
def availabilityFromValue (val : J) : String :=
  if val.isString then strTrim (val.toStringD "")
  else if val.isObject then
    strTrim ((jLookup val.toObjectD "state").toStringD "")
  else ""

/-- Accumulator of the `bridge/devices` processing loop. -/
structure BridgeFold where
  st : AdapterState
  evs : List Event
  seen : List String

/-- The `!interviewCompleted || !supported` branch of the
`bridge/devices` loop body: drop the entry and its buffered payload. -/
def processBridgeRemove (acc : BridgeFold) (deviceId ieeeAddress : String) :
    BridgeFold :=
  let existingMqttId :=
    if ieeeAddress = "" then deviceId
    else mapGetD acc.st.mqttByExternal ieeeAddress deviceId
  let (st1, evs1) :=
    match mapLookup acc.st.devices existingMqttId with
    | some e =>
      let mbe :=
        if e.device.id ≠ "" then mapRemove acc.st.mqttByExternal e.device.id
        else acc.st.mqttByExternal
      ({ acc.st with
          devices := mapRemove acc.st.devices existingMqttId,
          mqttByExternal := mbe },
       [Event.deviceRemoved e.device.id])
    | none => (acc.st, [])
  let st2 := { st1 with
    pendingStatePayloads := mapRemove st1.pendingStatePayloads
      existingMqttId }
  { st := st2, evs := acc.evs ++ evs1, seen := acc.seen }

/-- The rename-acknowledgement check of the `bridge/devices` loop body:
complete a pending rename whose target matches the entry's mqtt id. -/
def bridgeRenameEvs (st : AdapterState) (ieeeAddress : String)
    (entry0 : Z2mDeviceEntry) :
    List Event × List (String × PendingRename) :=
  if ieeeAddress ≠ "" then
    match mapLookup st.pendingRename ieeeAddress with
    | some pr =>
      if pr.targetName = entry0.mqttId then
        ([Event.cmdResult pr.cmdId CmdStatus.Success ""],
         mapRemove st.pendingRename ieeeAddress)
      else ([], st.pendingRename)
    | none => ([], st.pendingRename)
  else ([], st.pendingRename)

/-- The inline availability emission of the `bridge/devices` loop body
(the zero-delay availability timer of the source is modelled as an
emission at this point of the stream). -/
def bridgeAvailEvs (o : ExternOracle) (entry0 : Z2mDeviceEntry)
    (obj : List (String × J)) (now : Int) : List Event :=
  let availability0 := availabilityFromValue (jLookup obj "availability")
  let availability :=
    if availability0 = "" then
      strTrim ((jLookup obj "availability_state").toStringD "")
    else availability0
  let lastSeenMs := lastSeenMsFromValue o (jLookup obj "last_seen")
  match entry0.bindingsByChannel.find? (fun p => p.2.isAvailability) with
  | some p =>
    let state := strToLower availability
    if state = "" then
      if lastSeenMs > 0 then
        [Event.channelStateUpdated entry0.device.id p.2.channelId
          (.vInt (if now - lastSeenMs > kStaleThresholdMs then
              ConnectivityStatus.Disconnected
            else ConnectivityStatus.Connected).toInt) now]
      else []
    else if state = "online" then
      [Event.channelStateUpdated entry0.device.id p.2.channelId
        (.vInt ConnectivityStatus.Connected.toInt) now]
    else if state = "offline" then
      [Event.channelStateUpdated entry0.device.id p.2.channelId
        (.vInt ConnectivityStatus.Disconnected.toInt) now]
    else
      [Event.channelStateUpdated entry0.device.id p.2.channelId
        (.vInt ConnectivityStatus.Unknown.toInt) now]
  | none => []

/-- The coordinator bookkeeping at the end of the `bridge/devices` loop
body: record the coordinator id and flush a deferred `bridge/info`. -/
def bridgeCoordStep (stAfter : AdapterState) (entry0 : Z2mDeviceEntry)
    (obj : List (String × J)) (now : Int) : AdapterState × List Event :=
  let deviceType := (jLookup obj "type").toStringD ""
  if ciEq deviceType "Coordinator" then
    let st' := { stAfter with coordinatorId := entry0.device.id }
    if st'.pendingBridgeInfo.isEmpty = false then
      let r := handleBridgeInfoPayload st' st'.pendingBridgeInfo now
      ({ r.1 with pendingBridgeInfo := [] }, r.2)
    else (st', [])
  else (stAfter, [])

/-- The buffered-payload replay of the `bridge/devices` loop body. -/
def bridgeReplayStep (o : ExternOracle) (stMid : AdapterState)
    (mqttId : String) (now : Int) : AdapterState × List Event :=
  match mapLookup stMid.pendingStatePayloads mqttId with
  | some pendingPayload =>
    handleDeviceStatePayload o
      { stMid with pendingStatePayloads :=
          mapRemove stMid.pendingStatePayloads mqttId }
      mqttId pendingPayload now
  | none => (stMid, [])

/-- The registration path of the `bridge/devices` loop body: build or
migrate the entry, complete renames, replay a buffered state payload and
emit the inline availability update. -/
def processBridgeUpsert (o : ExternOracle) (acc : BridgeFold)
    (obj : List (String × J)) (deviceId ieeeAddress : String) (now : Int) :
    BridgeFold :=
  let seen :=
    if deviceId ∈ acc.seen then acc.seen else acc.seen ++ [deviceId]
  let previousMqttId :=
    if ieeeAddress = "" then ""
    else mapGetD acc.st.mqttByExternal ieeeAddress ""
  let renameDetected := previousMqttId ≠ "" ∧ previousMqttId ≠ deviceId
  let (entry0, devices0) :=
    match mapLookup acc.st.devices previousMqttId with
    | some e =>
      if previousMqttId ≠ "" then
        let e' := { e with
          mqttId := deviceId
          device := { e.device with
            name := deviceId
            meta := mapInsert e.device.meta "friendly_name"
              (J.jStr deviceId) } }
        if renameDetected then
          (e', mapRemove acc.st.devices previousMqttId)
        else (e', acc.st.devices)
      else (buildDeviceEntry obj, acc.st.devices)
    | none => (buildDeviceEntry obj, acc.st.devices)
  let pending1 :=
    if renameDetected then
      match mapLookup acc.st.pendingStatePayloads previousMqttId with
      | some payload =>
        mapInsert (mapRemove acc.st.pendingStatePayloads previousMqttId)
          deviceId payload
      | none => acc.st.pendingStatePayloads
    else acc.st.pendingStatePayloads
  let (renameEvs, pendingRename1) := bridgeRenameEvs acc.st ieeeAddress entry0
  let devices1 := mapInsert devices0 entry0.mqttId entry0
  let mbe1 :=
    if entry0.device.id ≠ "" then
      mapInsert acc.st.mqttByExternal entry0.device.id entry0.mqttId
    else acc.st.mqttByExternal
  let evs1 := renameEvs
    ++ [Event.deviceUpdated entry0.device entry0.channels]
  let stMid := { acc.st with
    devices := devices1, mqttByExternal := mbe1,
    pendingStatePayloads := pending1, pendingRename := pendingRename1 }
  let (stAfter, replayEvs) := bridgeReplayStep o stMid entry0.mqttId now
  let availEvs := bridgeAvailEvs o entry0 obj now
  let (stFinal, coordEvs) := bridgeCoordStep stAfter entry0 obj now
  { st := stFinal, evs := acc.evs ++ evs1 ++ replayEvs ++ availEvs ++ coordEvs,
    seen := seen }

/-- Processing of a single `bridge/devices` entry (the body of the loop in
`handleBridgeDevicesPayload`). -/
def processBridgeDevice (o : ExternOracle) (acc : BridgeFold) (value : J)
    (now : Int) : BridgeFold :=
  match value with
  | .jObj obj =>
    let deviceId := strTrim ((jLookup obj "friendly_name").toStringD "")
    if deviceId = "" then acc
    else
      let ieeeAddress := strTrim ((jLookup obj "ieee_address").toStringD "")
      let interviewCompleted := (jLookup obj "interview_completed").toBoolD true
      let supported := (jLookup obj "supported").toBoolD true
      if interviewCompleted = false ∨ supported = false then
        processBridgeRemove acc deviceId ieeeAddress
      else
        processBridgeUpsert o acc obj deviceId ieeeAddress now
  | _ => acc

/-- The full-snapshot sweep: remove every device whose key was not seen. -/
def sweepRemoved (st : AdapterState) (seen : List String) :
    AdapterState × List Event :=
  let removed := st.devices.filter (fun p => decide (¬ p.1 ∈ seen))
  let kept := st.devices.filter (fun p => decide (p.1 ∈ seen))
  let evs := removed.map (fun p => Event.deviceRemoved p.2.device.id)
  let mbe := removed.foldl
    (fun m p => if p.2.device.id ≠ "" then mapRemove m p.2.device.id else m)
    st.mqttByExternal
  ({ st with devices := kept, mqttByExternal := mbe }, evs)

/-- `Z2mAdapter::handleBridgeDevicesPayload`. -/
def handleBridgeDevicesPayload (o : ExternOracle) (st : AdapterState)
    (devices : List J) (fullSnapshot : Bool) (now : Int) :
    AdapterState × List Event :=
  let folded := devices.foldl (fun acc v => processBridgeDevice o acc v now)
    { st := st, evs := [], seen := [] }
  let (st2, evs2) :=
    if fullSnapshot then sweepRemoved folded.st folded.seen
    else (folded.st, [])
  let (st3, evs3) :=
    if st2.pendingFullSync then
      ({ st2 with pendingFullSync := false }, [Event.fullSyncCompleted])
    else (st2, [])
  (st3, folded.evs ++ evs2 ++ evs3)

/-! ### Command pipeline (`buildCommandPayload`, `publishCommand`,
`updateChannelState`, `requestFullSync`) -/

/-- The Enum encoding of `buildCommandPayload` (shared verbatim between
the top-level Enum branch and the `Unknown`-kind Enum branch). -/
def encodeEnumValue (binding : Z2mChannelBinding) (value : Val) : J :=
  if value.typeIsNumeric then
    let enumVal := value.toIntV
    if binding.enumValueToRaw.isEmpty = false then
      match mapLookup binding.enumValueToRaw enumVal with
      | some raw => J.jStr raw
      | none => J.jNum (enumVal : ℚ)
    else J.jNum (enumVal : ℚ)
  else
    let text := value.toStringV
    if binding.enumRawToValue.isEmpty = false
        ∧ mapContains binding.enumRawToValue text then
      J.jStr text
    else
      match qstringToInt text with
      | some numeric =>
        if binding.enumValueToRaw.isEmpty = false then
          match mapLookup binding.enumValueToRaw numeric with
          | some raw => J.jStr raw
          | none => J.jNum (numeric : ℚ)
        else J.jNum (numeric : ℚ)
      | none => J.jStr text

/-- `Z2mAdapter::buildCommandPayload`; `Except.error` carries the
`errorString`. -/
def buildCommandPayload (o : ExternOracle) (binding : Z2mChannelBinding)
    (value : Val) : Except String (List (String × J)) :=
  if binding.dataType = ChannelDataType.Enum then
    .ok [(binding.property, encodeEnumValue binding value)]
  else
    match binding.kind with
    | .PowerOnOff =>
      let isOn := value.toBoolV
      if binding.valueOn ≠ "" ∨ binding.valueOff ≠ "" then
        .ok [(binding.property,
          J.jStr (if isOn then binding.valueOn else binding.valueOff))]
      else .ok [(binding.property, J.jStr (if isOn then "ON" else "OFF"))]
    | .Brightness =>
      .ok [(binding.property,
        J.jNum (scaleFromPercent value.toDoubleV binding.rawMin binding.rawMax))]
    | .ColorTemperature => .ok [(binding.property, J.jNum value.toDoubleV)]
    | .ColorRGB =>
      if value.canConvertColor = false then .error "Invalid color value."
      else
        let color := value.getColor
        if binding.colorMode = "xy" then
          let xy := o.colorToXy color
          .ok [(binding.property,
            J.jObj [("x", J.jNum xy.1), ("y", J.jNum xy.2)])]
        else
          let hsv := o.colorToHsv color
          .ok [(binding.property,
            J.jObj [("hue", J.jNum hsv.hDeg), ("saturation", J.jNum (hsv.s * 100))])]
    | .Temperature | .Humidity | .Illuminance | .CO2 | .Power | .Voltage
    | .Current | .Energy | .SignalStrength | .LinkQuality | .Battery
    | .Duration =>
      let scaled := value.toDoubleV
        / (if binding.valueScale > 0 then binding.valueScale else 1)
      .ok [(binding.property, J.jNum scaled)]
    | .Unknown =>
      if binding.dataType = ChannelDataType.Bool then
        .ok [(binding.property, J.jBool value.toBoolV)]
      else if binding.dataType = ChannelDataType.Enum then
        .ok [(binding.property, encodeEnumValue binding value)]
      else
        let scaled := value.toDoubleV
          / (if binding.valueScale > 0 then binding.valueScale else 1)
        .ok [(binding.property, J.jNum scaled)]
    | _ => .error "Unsupported channel"

/-- `Z2mAdapter::publishCommand`: the publish attempt appears as an event;
the boolean is the `msgId >= 0` result (`publishOk` oracle). -/
def publishCommand (st : AdapterState) (deviceId : String)
    (payload : List (String × J)) (endpoint : String) : Bool × List Event :=
  if st.client = false ∨ st.clientState ≠ MqttState.Connected then (false, [])
  else
    let topic :=
      if endpoint = "" then st.baseTopic ++ "/" ++ deviceId ++ "/set"
      else st.baseTopic ++ "/" ++ deviceId ++ "/" ++ endpoint ++ "/set"
    (st.publishOk, [Event.publish topic (J.jObj payload)])

/-- `Z2mAdapter::updateChannelState`. -/
def updateChannelState (o : ExternOracle) (st : AdapterState)
    (deviceExternalId channelExternalId : String) (value : Val)
    (cmdId : Nat) (now : Int) : AdapterState × List Event :=
  let mqttId := mapGetD st.mqttByExternal deviceExternalId deviceExternalId
  match mapLookup st.devices mqttId with
  | none =>
    (st, [Event.cmdResult cmdId CmdStatus.NotSupported "Unknown device"])
  | some entry =>
    match mapLookup entry.bindingsByChannel channelExternalId with
    | none =>
      (st, [Event.cmdResult cmdId CmdStatus.NotSupported "Unknown channel"])
    | some binding =>
      if binding.flags.writable = false then
        (st, [Event.cmdResult cmdId CmdStatus.NotSupported
          "Channel is read-only"])
      else if st.connected = false ∨ st.client = false
          ∨ st.clientState ≠ MqttState.Connected then
        (st, [Event.cmdResult cmdId CmdStatus.TemporarilyOffline
          "MQTT broker not connected"])
      else
        match buildCommandPayload o binding value with
        | .error errorString =>
          (st, [Event.cmdResult cmdId CmdStatus.InvalidArgument errorString])
        | .ok payload =>
          let pub := publishCommand st mqttId payload binding.endpoint
          if pub.1 = false then
            (st, pub.2 ++ [Event.cmdResult cmdId CmdStatus.Failure
              "MQTT publish failed."])
          else
            let st' := { st with postSetRefreshArmed :=
              if mqttId ∈ st.postSetRefreshArmed then st.postSetRefreshArmed
              else st.postSetRefreshArmed ++ [mqttId] }
            (st', pub.2 ++ [Event.cmdResult cmdId CmdStatus.Success ""])

/-- `Z2mAdapter::requestFullSync`. -/
def requestFullSync (st : AdapterState) : AdapterState × List Event :=
  let st1 := { st with pendingFullSync := true }
  let pubEvs :=
    if st1.client ∧ st1.clientState = MqttState.Connected then
      [Event.publish (st1.baseTopic ++ "/bridge/request/devices") (J.jObj [])]
    else []
  let devEvs := st1.devices.map
    (fun p => Event.deviceUpdated p.2.device p.2.channels)
  (st1, pubEvs ++ devEvs)

/-! ### Rename flow and adapter actions -/

/-- `Z2mAdapter::updateDeviceName` (the 10 s timeout timer is armed by
recording the pending entry; its expiry is the `renameTimeout` input). -/
def updateDeviceName (st : AdapterState) (deviceId name : String)
    (cmdId : Nat) (now : Int) : AdapterState × List Event :=
  let trimmed := strTrim name
  if trimmed = "" then
    (st, [Event.cmdResult cmdId CmdStatus.InvalidArgument
      "Name must not be empty"])
  else
    let mqttId := mapGetD st.mqttByExternal deviceId deviceId
    if mqttId = "" then
      (st, [Event.cmdResult cmdId CmdStatus.NotSupported "Unknown device"])
    else if mapContains st.pendingRename deviceId then
      (st, [Event.cmdResult cmdId CmdStatus.TemporarilyOffline
        "Rename already pending"])
    else if st.connected = false ∨ st.client = false
        ∨ st.clientState ≠ MqttState.Connected then
      (st, [Event.cmdResult cmdId CmdStatus.TemporarilyOffline
        "MQTT broker not connected"])
    else
      let payload := J.jObj [("from", J.jStr mqttId), ("to", J.jStr trimmed)]
      let topic := st.baseTopic ++ "/bridge/request/device/rename"
      if st.publishOk = false then
        (st, [Event.publish topic payload,
          Event.cmdResult cmdId CmdStatus.Failure "MQTT publish failed."])
      else
        let pending : PendingRename :=
          { cmdId := cmdId, targetName := trimmed, requestedAtMs := now }
        ({ st with
            pendingRename := mapInsert st.pendingRename deviceId pending },
         [Event.publish topic payload])

/-- Expiry of the 10 s rename timeout timer for `deviceId`. -/
def renameTimeoutFire (st : AdapterState) (deviceId : String) :
    AdapterState × List Event :=
  match mapLookup st.pendingRename deviceId with
  | none => (st, [])
  | some pr =>
    ({ st with pendingRename := mapRemove st.pendingRename deviceId },
     [Event.cmdResult pr.cmdId CmdStatus.Failure "Rename timeout"])

/-- `Z2mAdapter::invokeAdapterAction`, including the base-class fallback
(`AdapterInterface::invokeAdapterAction` from `adapterinterface.h`). -/
def invokeAdapterAction (st : AdapterState) (actionId : String)
    (params : List (String × J)) (cmdId : Nat) : AdapterState × List Event :=
  if actionId ≠ "permitJoin" ∧ actionId ≠ "restartZ2M" then
    if actionId = "settings" then
      (st, [Event.adapterMetaUpdated params]
        ++ (if cmdId = 0 then []
            else [Event.actionResult cmdId CmdStatus.Success ""]))
    else if cmdId = 0 then (st, [])
    else
      (st, [Event.actionResult cmdId CmdStatus.NotImplemented
        "AdapterInterface action not supported"])
  else if st.client = false ∨ st.clientState ≠ MqttState.Connected then
    (st, [Event.actionResult cmdId CmdStatus.Failure
      "MQTT client not connected."])
  else if st.bridgeOnline = false then
    (st, [Event.actionResult cmdId CmdStatus.Failure "Z2M bridge is offline."])
  else
    let (topic, payload) :=
      if actionId = "restartZ2M" then
        (st.baseTopic ++ "/bridge/request/restart", J.jObj [])
      else
        (st.baseTopic ++ "/bridge/request/permit_join",
         J.jObj [("value", J.jBool true), ("time", J.jNum 120)])
    if st.publishOk = false then
      (st, [Event.publish topic payload,
        Event.actionResult cmdId CmdStatus.Failure "MQTT publish failed."])
    else
      (st, [Event.publish topic payload,
        Event.actionResult cmdId CmdStatus.Success ""])

/-- The `bridge/response/device/rename` handler. -/
def handleRenameResponse (st : AdapterState) (resp : List (String × J))
    (now : Int) : AdapterState × List Event :=
  let data := (jLookup resp "data").toObjectD
  let status := strToLower (strTrim ((jLookup resp "status").toStringD ""))
  let fromName := strTrim ((jLookup data "from").toStringD "")
  let toName := strTrim ((jLookup data "to").toStringD "")
  if status = "ok" then
    let folded := st.pendingRename.foldl
      (fun (acc : List (String × PendingRename) × List Event) pr =>
        let ieee := pr.1
        let currentMqtt := mapGetD st.mqttByExternal ieee ""
        if (toName ≠ "" ∧ pr.2.targetName = toName)
            ∨ (fromName ≠ "" ∧ currentMqtt = fromName) then
          let mqttId := if toName ≠ "" then toName else currentMqtt
          let availEvs :=
            match mapLookup st.devices mqttId with
            | some e =>
              match e.bindingsByChannel.find? (fun p => p.2.isAvailability) with
              | some p =>
                [Event.channelStateUpdated e.device.id p.2.channelId
                  (.vInt ConnectivityStatus.Connected.toInt) now]
              | none => []
            | none => []
          (acc.1, acc.2 ++ [Event.cmdResult pr.2.cmdId CmdStatus.Success ""]
            ++ availEvs)
        else (acc.1 ++ [pr], acc.2))
      ([], [])
    ({ st with pendingRename := folded.1 }, folded.2)
  else (st, [])

/-- The `bridge/response/device/get` handler. -/
def handleDeviceGetResponse (st : AdapterState) (resp : List (String × J)) :
    AdapterState × List Event :=
  let data := (jLookup resp "data").toObjectD
  let deviceObj := if data.isEmpty then resp else data
  let ieee := strTrim ((jLookup deviceObj "ieee_address").toStringD "")
  let friendly := strTrim ((jLookup deviceObj "friendly_name").toStringD "")
  if ieee ≠ "" then
    match mapLookup st.pendingRename ieee with
    | some pending =>
      let st' := { st with pendingRename := mapRemove st.pendingRename ieee }
      if friendly ≠ "" ∧ friendly = pending.targetName then
        (st', [Event.cmdResult pending.cmdId CmdStatus.Success ""])
      else
        (st', [Event.cmdResult pending.cmdId CmdStatus.Failure
          "Rename not applied"])
    | none => (st, [])
  else (st, [])

/-! ### Message router (`handleMqttMessage`) -/

/-- Inbound MQTT message: the raw text and its JSON parse result
(`QJsonDocument::fromJson`; `none` models a parse error). -/
def handleMqttMessage (o : ExternOracle) (st : AdapterState)
    (topic text : String) (parsed : Option J) (now : Int) :
    AdapterState × List Event :=
  let prefixStr := st.baseTopic ++ "/"
  if strStartsWith topic prefixStr = false then (st, [])
  else
    let suffix := strDrop topic prefixStr.data.length
    if strStartsWith suffix "bridge/" then
      if suffix = "bridge/state" then
        let payloadText := strToLower (strTrim text)
        if payloadText = "\x7b\"state\":\"offline\"\x7d"
            ∨ payloadText = "offline" then
          updateConnectionState { st with bridgeOnline := false }
        else if payloadText = "\x7b\"state\":\"online\"\x7d"
            ∨ payloadText = "online" then
          let r := updateConnectionState { st with bridgeOnline := true }
          if r.1.lastSeenRequested = false then
            let payload := J.jObj [("options", J.jObj
              [("advanced", J.jObj [("last_seen", J.jStr "epoch")])])]
            ({ r.1 with lastSeenRequested := true },
             r.2 ++ [Event.publish
               (st.baseTopic ++ "/bridge/request/options") payload])
          else r
        else (st, [])
      else if suffix = "bridge/health" then
        match parsed with
        | some (.jObj obj) => (st, [Event.adapterMetaUpdated
            [("health", J.jObj obj)]])
        | _ => (st, [])
      else if suffix = "bridge/response/device/rename" then
        match parsed with
        | some (.jObj resp) => handleRenameResponse st resp now
        | _ => (st, [])
      else if suffix = "bridge/response/options" then (st, [])
      else if suffix = "bridge/response/device/get" then
        match parsed with
        | some (.jObj resp) => handleDeviceGetResponse st resp
        | _ => (st, [])
      else if suffix = "bridge/info" then
        match parsed with
        | some (.jObj obj) => handleBridgeInfoPayload st obj now
        | _ => (st, [])
      else if suffix = "bridge/devices"
          ∨ suffix = "bridge/response/devices" then
        match parsed with
        | some doc =>
          let devices :=
            if doc.isArray then doc.toArrayD
            else if doc.isObject then
              let obj := doc.toObjectD
              if (jLookup obj "data").isArray then (jLookup obj "data").toArrayD
              else if strToLower (strTrim ((jLookup obj "status").toStringD ""))
                    = "ok"
                  ∧ jContains obj "result"
                  ∧ (jLookup obj "result").isArray then
                (jLookup obj "result").toArrayD
              else []
            else []
          if devices.isEmpty then (st, [])
          else handleBridgeDevicesPayload o st devices
            (suffix = "bridge/devices") now
        | none => (st, [])
      else (st, [])
    else if strEndsWith suffix "/availability" then
      let slashIndex := strIndexOfChar suffix '/'
      if slashIndex ≤ 0 then (st, [])
      else
        let deviceId := strTake suffix slashIndex.toNat
        let payloadText0 := strTrim text
        let payloadText :=
          if strStartsWith payloadText0 "\x7b" then
            match parsed with
            | some (.jObj obj) => (jLookup obj "state").toStringD payloadText0
            | _ => payloadText0
          else payloadText0
        (st, handleAvailabilityPayload st deviceId payloadText now)
    else if strEndsWith suffix "/get" ∨ strEndsWith suffix "/set" then (st, [])
    else if strContainsStr suffix "/" then (st, [])
    else
      match parsed with
      | some (.jObj obj) => handleDeviceStatePayload o st suffix obj now
      | _ => (st, [])

/-! ### The adapter as a transition system -/

/-- The inputs that drive the adapter: MQTT callbacks and messages, host
method calls, and timer expiries. -/
inductive HostInput where
  | mqttConnectedCb
  | mqttDisconnectedCb
  | mqttMessage (topic text : String) (parsed : Option J)
  | callUpdateChannelState (deviceExternalId channelExternalId : String)
      (value : Val) (cmdId : Nat)
  | callUpdateDeviceName (deviceId name : String) (cmdId : Nat)
  | callInvokeAdapterAction (actionId : String) (params : List (String × J))
      (cmdId : Nat)
  | callRequestFullSync
  | callStop
  | renameTimeout (deviceId : String)
  | postSetRefreshTimeout (mqttId : String)
  | reconnectTimeout

/-- One step of the adapter's event loop. -/
def step (o : ExternOracle) (st : AdapterState) (input : HostInput)
    (now : Int) : AdapterState × List Event :=
  match input with
  | .mqttConnectedCb => onMqttConnected st
  | .mqttDisconnectedCb => onMqttDisconnected st
  | .mqttMessage topic text parsed => handleMqttMessage o st topic text parsed now
  | .callUpdateChannelState d c v id => updateChannelState o st d c v id now
  | .callUpdateDeviceName d n id => updateDeviceName st d n id now
  | .callInvokeAdapterAction a p id => invokeAdapterAction st a p id
  | .callRequestFullSync => requestFullSync st
  | .callStop => stopAdapter st
  | .renameTimeout d => renameTimeoutFire st d
  | .postSetRefreshTimeout m => postSetRefreshFire st m
  | .reconnectTimeout => (reconnectFire st, [])

/-- Run a trace of timed inputs from a state, collecting all events. -/
def run (o : ExternOracle) (inputs : List (HostInput × Int))
    (st : AdapterState) : AdapterState × List Event :=
  inputs.foldl
    (fun acc i =>
      let r := step o acc.1 i.1 i.2
      (r.1, acc.2 ++ r.2))
    (st, [])

/-! ### Event classifiers used by the theorems -/

def isConnEvent : Event → Bool
  | .connectionStateChanged _ => true
  | _ => false

def isChannelStateEvent : Event → Bool
  | .channelStateUpdated _ _ _ _ => true
  | _ => false

def isPublishEvent : Event → Bool
  | .publish _ _ => true
  | _ => false

def isDeviceRemovedEvent : Event → Bool
  | .deviceRemoved _ => true
  | _ => false

/-- Project a `cmdResult` signal to its id and status. -/
def evCmdResult : Event → Option (Nat × CmdStatus)
  | .cmdResult id status _ => some (id, status)
  | _ => none

/-- Project a `connectionStateChanged` signal to its flag. -/
def evConn : Event → Option Bool
  | .connectionStateChanged b => some b
  | _ => none

/-- Project a `deviceRemoved` signal to the removed id. -/
def evDeviceRemoved : Event → Option String
  | .deviceRemoved id => some id
  | _ => none

/-- Modelled from the spec (§4.F, claim C1): the command status determined
by the first failing check, in the spec's order — unresolvable device,
missing binding, missing Writable flag, adapter not Connected, encoding
failure, publish failure, otherwise Success. This definition follows the
spec's words and is compared against `updateChannelState`. -/
def c1SpecStatus (o : ExternOracle) (st : AdapterState)
    (deviceExternalId channelExternalId : String) (value : Val) : CmdStatus :=
  let mqttId := mapGetD st.mqttByExternal deviceExternalId deviceExternalId
  match mapLookup st.devices mqttId with
  | none => .NotSupported
  | some entry =>
    match mapLookup entry.bindingsByChannel channelExternalId with
    | none => .NotSupported
    | some binding =>
      if binding.flags.writable = false then .NotSupported
      else if st.connected = false then .TemporarilyOffline
      else
        match buildCommandPayload o binding value with
        | .error _ => .InvalidArgument
        | .ok _ => if st.publishOk = false then .Failure else .Success

/-- Frame property for the connection analysis: the transition leaves the
three connection flags untouched and emits no `connectionStateChanged`. -/
def connFrame (st : AdapterState) (r : AdapterState × List Event) : Prop :=
  r.1.connected = st.connected ∧ r.1.mqttConnected = st.mqttConnected
    ∧ r.1.bridgeOnline = st.bridgeOnline
    ∧ r.2.all (fun e => ! isConnEvent e) = true

/-! ### Concrete fixtures used by witnesses -/

/-- A writable `state → PowerOnOff(Bool)` binding (scenario S1). -/
def sampleBinding : Z2mChannelBinding :=
  { channelId := "state", property := "state", kind := .PowerOnOff,
    dataType := .Bool,
    flags := { readable := true, writable := true, reportable := true,
               retained := true },
    valueOn := "ON", valueOff := "OFF" }

/-- The implicit connectivity binding of every device entry. -/
def sampleAvailabilityBinding : Z2mChannelBinding :=
  { channelId := "connectivity", property := "availability",
    kind := .ConnectivityStatus, dataType := .Enum,
    flags := ChannelFlagDefaultRead, isAvailability := true }

/-- A registered bulb with a writable `state` channel and the implicit
connectivity channel. -/
def sampleEntry : Z2mDeviceEntry :=
  { device := { name := "bulb1", id := "0xAA" }, mqttId := "bulb1",
    channels := [],
    bindingsByChannel :=
      [("state", sampleBinding), ("connectivity", sampleAvailabilityBinding)] }

/-- A fully connected adapter state knowing `sampleEntry`. -/
def sampleConnectedState : AdapterState :=
  { client := true, clientState := .Connected, connected := true,
    mqttConnected := true, bridgeOnline := true,
    devices := [("bulb1", sampleEntry)],
    mqttByExternal := [("0xAA", "bulb1")] }

end Z2m

/-! ## Theorems -/

open Z2m

theorem qBound_eq_self {lo v hi : ℚ} (h1 : lo ≤ v) (h2 : v ≤ hi) :
    qBound lo v hi = v := by
  unfold qBound
  rw [min_eq_right h2, max_eq_right h1]

theorem mapLookup_mapInsert_self {κ α : Type} [DecidableEq κ]
    (m : List (κ × α)) (k : κ) (v : α) :
    mapLookup (mapInsert m k v) k = some v := by
  induction m with
  | nil => simp [mapInsert, mapLookup]
  | cons hd tl ih =>
    by_cases h : hd.1 = k
    · simp [mapInsert, h, mapLookup]
    · simp [mapInsert, h, mapLookup, ih]

theorem mapLookup_mapInsert_ne {κ α : Type} [DecidableEq κ]
    (m : List (κ × α)) (k' k : κ) (v : α) (h : k' ≠ k) :
    mapLookup (mapInsert m k' v) k = mapLookup m k := by
  induction m with
  | nil => simp [mapInsert, mapLookup, h]
  | cons hd tl ih =>
    by_cases hh : hd.1 = k'
    · have hk : hd.1 ≠ k := by rw [hh]; exact h
      simp [mapInsert, hh, mapLookup, h, hk]
    · by_cases hk : hd.1 = k
      · have hne : ¬ k = k' := fun hx => h hx.symm
        simp [mapInsert, hh, mapLookup, hk, hne]
      · simp [mapInsert, hh, mapLookup, hk, ih]

theorem mapContains_mapInsert {κ α : Type} [DecidableEq κ]
    (m : List (κ × α)) (k' k : κ) (v : α) :
    mapContains (mapInsert m k' v) k = (mapContains m k || decide (k = k')) := by
  by_cases h : k' = k
  · subst h
    simp [mapContains, mapLookup_mapInsert_self]
  · rw [mapContains, mapLookup_mapInsert_ne m k' k v h, ← mapContains]
    have hdec : decide (k = k') = false :=
      decide_eq_false (fun hx => h hx.symm)
    rw [hdec, Bool.or_false]

theorem idxFirst_get (l : List String) (k : String) (i : Nat)
    (h : idxFirst k l = some i) : l.get? i = some k := by
  induction l generalizing i with
  | nil => simp [idxFirst] at h
  | cons x xs ih =>
    by_cases hx : x = k
    · simp [idxFirst, hx] at h
      subst h; simp [hx]
    · simp [idxFirst, hx] at h
      obtain ⟨j, hj, hji⟩ := h
      subst hji
      simpa using ih j hj

theorem idxFirst_none_of_not_mem (l : List String) (k : String)
    (h : ¬ k ∈ l) : idxFirst k l = none := by
  induction l with
  | nil => rfl
  | cons x xs ih =>
    simp only [List.mem_cons, not_or] at h
    have hxk : ¬ x = k := fun hx => h.1 hx.symm
    simp [idxFirst, hxk, ih h.2]

theorem dedupFirstN_congr (m : Nat) :
    ∀ (n : Nat) (l : List String), l.length ≤ m → l.length ≤ n →
      dedupFirstN m l = dedupFirstN n l := by
  induction m with
  | zero =>
    intro n l hm _
    have : l = [] := List.length_eq_zero.mp (Nat.le_zero.mp hm)
    subst this
    cases n <;> rfl
  | succ m ih =>
    intro n l hm hn
    cases l with
    | nil => cases n <;> rfl
    | cons x xs =>
      cases n with
      | zero => simp at hn
      | succ n =>
        simp only [dedupFirstN]
        congr 1
        apply ih
        · exact le_trans (List.length_filter_le _ _)
            (Nat.le_of_succ_le_succ (by simpa using hm))
        · exact le_trans (List.length_filter_le _ _)
            (Nat.le_of_succ_le_succ (by simpa using hn))

theorem dedupFirst_nil : dedupFirst [] = [] := rfl

theorem dedupFirst_cons (x : String) (xs : List String) :
    dedupFirst (x :: xs) = x :: dedupFirst (xs.filter (fun y => y ≠ x)) := by
  unfold dedupFirst
  simp only [List.length_cons, dedupFirstN]
  congr 1
  exact dedupFirstN_congr xs.length _ _ (List.length_filter_le _ _) le_rfl

theorem mem_dedupFirstN (x : String) (n : Nat) :
    ∀ (l : List String), l.length ≤ n → (x ∈ dedupFirstN n l ↔ x ∈ l) := by
  induction n with
  | zero =>
    intro l h
    have : l = [] := List.length_eq_zero.mp (Nat.le_zero.mp h)
    subst this
    simp [dedupFirstN]
  | succ n ih =>
    intro l h
    cases l with
    | nil => simp [dedupFirstN]
    | cons z zs =>
      simp only [dedupFirstN, List.mem_cons]
      have hlen : (zs.filter (fun y => y ≠ z)).length ≤ n :=
        le_trans (List.length_filter_le _ _)
          (Nat.le_of_succ_le_succ (by simpa using h))
      rw [ih _ hlen]
      constructor
      · rintro (h1 | h1)
        · exact Or.inl h1
        · exact Or.inr (List.mem_of_mem_filter h1)
      · rintro (h1 | h1)
        · exact Or.inl h1
        · by_cases hz : x = z
          · exact Or.inl hz
          · exact Or.inr (List.mem_filter.mpr ⟨h1, by simp [hz]⟩)

theorem mem_dedupFirst (x : String) (l : List String) :
    x ∈ dedupFirst l ↔ x ∈ l :=
  mem_dedupFirstN x l.length l le_rfl

theorem not_mem_dedupFirst_filter (l : List String) (x : String) :
    ¬ x ∈ dedupFirst (l.filter (fun y => y ≠ x)) := by
  intro hmem
  have hx := (mem_dedupFirst x _).mp hmem
  simp at hx

/-- Core characterization of the assignment loop: a key's final value is its
original one if it was already mapped (or never inserted), and
`mx + 1 + i` when it is the `i`-th newly inserted key. -/
theorem assignNew_lookup (ks : List String) (m : List (String × Int))
    (mx : Int) (k : String) :
    mapLookup (assignNew ks m mx) k =
      match idxFirst k
        (dedupFirst (ks.filter (fun x => decide (¬ x = "") && ! mapContains m x))) with
      | some i => some (mx + 1 + i)
      | none => mapLookup m k := by
  induction ks generalizing m mx with
  | nil => simp [assignNew, dedupFirst, dedupFirstN, idxFirst]
  | cons k' ks ih =>
    by_cases h0 : k' = ""
    · subst h0
      rw [assignNew, if_pos rfl, ih]
      simp
    · by_cases hc : mapContains m k'
      · rw [assignNew, if_neg h0, if_pos hc, ih]
        simp [h0, hc]
      · rw [assignNew, if_neg h0, if_neg hc, ih]
        have hfil : (k' :: ks).filter
            (fun x => decide (¬ x = "") && ! mapContains m x) =
            k' :: ks.filter (fun x => decide (¬ x = "") && ! mapContains m x) := by
          simp [List.filter_cons, h0, hc]
        have hfil2 : ks.filter
            (fun x => decide (¬ x = "") && ! mapContains (mapInsert m k' (mx + 1)) x) =
            (ks.filter (fun x => decide (¬ x = "") && ! mapContains m x)).filter
              (fun y => y ≠ k') := by
          rw [List.filter_filter]
          apply List.filter_congr
          intro x _
          rw [mapContains_mapInsert]
          by_cases hx : x = k' <;> simp [hx, h0, hc]
        rw [hfil2, hfil]
        rw [dedupFirst_cons]
        by_cases hk : k' = k
        · subst hk
          rw [idxFirst, if_pos rfl]
          have hnone := idxFirst_none_of_not_mem _ k'
            (not_mem_dedupFirst_filter
              (ks.filter (fun x => decide (¬ x = "") && ! mapContains m x)) k')
          rw [hnone]
          simp [mapLookup_mapInsert_self]
        · rw [idxFirst, if_neg hk]
          rw [mapLookup_mapInsert_ne m k' k _ hk]
          cases idxFirst k
              (dedupFirst ((ks.filter
                (fun x => decide (¬ x = "") && ! mapContains m x)).filter
                  (fun y => y ≠ k'))) with
          | none => rfl
          | some j =>
            have hstep : some (mx + 1 + 1 + (j : ℤ)) =
                some (mx + 1 + ((j + 1 : ℕ) : ℤ)) := by
              congr 1
              push_cast
              ring
            exact hstep

theorem jLookup_eq_undef_of_not_mem (l : List (String × J)) (k : String)
    (h : ¬ k ∈ l.map Prod.fst) : jLookup l k = J.jUndef := by
  induction l with
  | nil => rfl
  | cons hd tl ih =>
    simp only [List.map_cons, List.mem_cons, not_or] at h
    have hk : ¬ hd.1 = k := fun hx => h.1 hx.symm
    obtain ⟨k1, j1⟩ := hd
    simp only [jLookup]
    rw [if_neg hk, ih h.2]

theorem seedStep_lookup_ne (acc : List (String × Int) × Int) (kv : String × J)
    (k : String) (h : kv.1 ≠ k) :
    mapLookup (seedStep acc kv).1 k = mapLookup acc.1 k := by
  obtain ⟨k1, j1⟩ := kv
  simp only at h
  cases j1 <;> simp only [seedStep, J.isDouble, J.toIntD, Bool.false_eq_true,
    if_false, if_true]
  split_ifs <;> simp [mapLookup_mapInsert_ne _ _ _ _ h]

theorem seedFold_lookup (l : List (String × J)) (acc : List (String × Int) × Int)
    (k : String) (hnd : (l.map Prod.fst).Nodup) :
    mapLookup (l.foldl seedStep acc).1 k =
      match jLookup l k with
      | J.jNum q =>
        if q.den = 1 ∧ 0 < q.num then some q.num else mapLookup acc.1 k
      | _ => mapLookup acc.1 k := by
  induction l generalizing acc with
  | nil => simp [jLookup]
  | cons hd tl ih =>
    rw [List.foldl_cons]
    simp only [List.map_cons, List.nodup_cons] at hnd
    obtain ⟨hnotin, hnd'⟩ := hnd
    rw [ih _ hnd']
    obtain ⟨k1, j1⟩ := hd
    by_cases hk : k1 = k
    · subst hk
      rw [jLookup_eq_undef_of_not_mem tl k1 hnotin]
      simp only [jLookup, if_pos rfl]
      cases j1 with
      | jNum q =>
        simp only [seedStep, J.isDouble, J.toIntD, if_true]
        by_cases hden : q.den = 1
        · by_cases hpos : 0 < q.num
          · rw [if_pos hden, if_neg (by omega)]
            simp [mapLookup_mapInsert_self, hden, hpos]
          · rw [if_pos hden, if_pos (by omega)]
            simp [hden, hpos]
        · rw [if_neg hden, if_pos le_rfl]
          simp [hden]
      | jUndef => simp [seedStep, J.isDouble]
      | jNull => simp [seedStep, J.isDouble]
      | jBool b => simp [seedStep, J.isDouble]
      | jStr s => simp [seedStep, J.isDouble]
      | jArr xs => simp [seedStep, J.isDouble]
      | jObj fs => simp [seedStep, J.isDouble]
    · have hstep := seedStep_lookup_ne acc (k1, j1) k hk
      simp only [jLookup, if_neg hk]
      cases hj : jLookup tl k <;> simp [hstep]

theorem seedStep_inv (acc : List (String × Int) × Int) (kv : String × J)
    (h0 : 0 ≤ acc.2)
    (hb : ∀ k v, mapLookup acc.1 k = some v → v ≤ acc.2) :
    0 ≤ (seedStep acc kv).2 ∧
    ∀ k v, mapLookup (seedStep acc kv).1 k = some v → v ≤ (seedStep acc kv).2 := by
  obtain ⟨k1, j1⟩ := kv
  cases j1 <;> simp only [seedStep, J.isDouble, J.toIntD, Bool.false_eq_true,
    if_false, if_true] <;> try exact ⟨h0, hb⟩
  rename_i q
  by_cases hskip : (if q.den = 1 then q.num else 0) ≤ 0
  · rw [if_pos hskip]
    exact ⟨h0, hb⟩
  · rw [if_neg hskip]
    have hmono : acc.2 ≤ (if acc.2 < (if q.den = 1 then q.num else 0)
        then (if q.den = 1 then q.num else 0) else acc.2) := by
      split_ifs <;> omega
    have hvle : (if q.den = 1 then q.num else 0) ≤
        (if acc.2 < (if q.den = 1 then q.num else 0)
          then (if q.den = 1 then q.num else 0) else acc.2) := by
      split_ifs <;> omega
    refine ⟨le_trans h0 hmono, ?_⟩
    intro k v hv
    by_cases hk : k1 = k
    · subst hk
      rw [mapLookup_mapInsert_self] at hv
      injection hv with hv
      omega
    · rw [mapLookup_mapInsert_ne _ _ _ _ hk] at hv
      exact le_trans (hb k v hv) hmono

theorem seedFold_bound (l : List (String × J)) (acc : List (String × Int) × Int)
    (h0 : 0 ≤ acc.2)
    (hb : ∀ k v, mapLookup acc.1 k = some v → v ≤ acc.2) :
    0 ≤ (l.foldl seedStep acc).2 ∧
    ∀ k v, mapLookup (l.foldl seedStep acc).1 k = some v →
      v ≤ (l.foldl seedStep acc).2 := by
  induction l generalizing acc with
  | nil => exact ⟨h0, hb⟩
  | cons hd tl ih =>
    rw [List.foldl_cons]
    have hs := seedStep_inv acc hd h0 hb
    exact ih _ hs.1 hs.2

theorem mem_insertSortedCI (x y : String) (l : List String) :
    y ∈ insertSortedCI x l ↔ y = x ∨ y ∈ l := by
  induction l with
  | nil => simp [insertSortedCI]
  | cons z zs ih =>
    simp only [insertSortedCI]
    split_ifs with hle
    · simp
    · simp only [List.mem_cons, ih]
      tauto

theorem mem_sortCI (y : String) (l : List String) :
    y ∈ sortCI l ↔ y ∈ l := by
  induction l with
  | nil => simp [sortCI]
  | cons x xs ih =>
    simp only [sortCI, mem_insertSortedCI, List.mem_cons, ih]

theorem idxFirst_isSome_of_mem (x : String) (l : List String)
    (h : x ∈ l) : ∃ i, idxFirst x l = some i := by
  induction l with
  | nil => simp at h
  | cons z zs ih =>
    by_cases hz : z = x
    · exact ⟨0, by simp [idxFirst, hz]⟩
    · rcases List.mem_cons.mp h with h' | h'
      · exact absurd h'.symm hz
      · obtain ⟨i, hi⟩ := ih h'
        exact ⟨i + 1, by simp [idxFirst, hz, hi]⟩

/-- C3: the stable enum map builder is deterministic and
extension-preserving: (a) building twice from the same inputs yields the
same mapping (definitional in the functional model); (b) every key of the
existing map holding a positive integer keeps its value; (c) the `i`-th
newly inserted key (non-empty, not already mapped, in case-insensitive
sorted order, first occurrence) is assigned `max + 1 + i`, the next
positive integers after the current maximum; (d) every non-empty new raw
key is indeed among the newly inserted keys; (e) the tracked maximum is
non-negative and bounds every preserved value. -/
theorem c3_enum_map_stable (rawKeys : List String) (existing : List (String × J))
    (hnd : (existing.map Prod.fst).Nodup) :
    buildStableEnumMap rawKeys existing = buildStableEnumMap rawKeys existing
    ∧ (∀ k q, jLookup existing k = J.jNum q → q.den = 1 → 0 < q.num →
        mapLookup (buildStableEnumMap rawKeys existing) k = some q.num)
    ∧ (∀ k i, idxFirst k (newEnumKeys rawKeys existing) = some i →
        mapLookup (buildStableEnumMap rawKeys existing) k
          = some ((enumSeed existing).2 + 1 + i))
    ∧ (∀ k, k ∈ rawKeys → ¬ k = "" →
        mapContains (enumSeed existing).1 k = false →
        ∃ i, idxFirst k (newEnumKeys rawKeys existing) = some i)
    ∧ 0 ≤ (enumSeed existing).2
    ∧ (∀ k v, mapLookup (enumSeed existing).1 k = some v →
        v ≤ (enumSeed existing).2) := by
  have hbound := seedFold_bound existing ([], 0) le_rfl
    (by intro k v hv; simp [mapLookup] at hv)
  refine ⟨rfl, ?_, ?_, ?_, hbound.1, hbound.2⟩
  · intro k q hjl hden hpos
    have hseed : mapLookup (enumSeed existing).1 k = some q.num := by
      rw [enumSeed, seedFold_lookup existing ([], 0) k hnd, hjl]
      simp [hden, hpos]
    have hcont : mapContains (enumSeed existing).1 k = true := by
      rw [mapContains, hseed]; rfl
    have hnotmem : ¬ k ∈ dedupFirst ((sortCI rawKeys).filter
        (fun x => decide (¬ x = "") && ! mapContains (enumSeed existing).1 x)) := by
      rw [mem_dedupFirst]
      intro hmem
      have := (List.mem_filter.mp hmem).2
      simp [hcont] at this
    rw [buildStableEnumMap, assignNew_lookup,
      idxFirst_none_of_not_mem _ _ hnotmem]
    exact hseed
  · intro k i hidx
    rw [newEnumKeys] at hidx
    rw [buildStableEnumMap, assignNew_lookup, hidx]
  · intro k hkmem hkne hknc
    apply idxFirst_isSome_of_mem
    rw [newEnumKeys, mem_dedupFirst]
    apply List.mem_filter.mpr
    refine ⟨(mem_sortCI k rawKeys).mpr hkmem, ?_⟩
    simp [hkne, hknc]

/-- Witness for C3: existing entry `old ↦ 2` is preserved; the new keys
`A` then `b` (case-insensitive sorted) get `3` and `4`. -/
theorem c3_enum_map_stable_witness :
    mapLookup (Z2m.buildStableEnumMap ["b", "A"] [("old", Z2m.J.jNum 2)]) "old"
      = some 2 ∧
    mapLookup (Z2m.buildStableEnumMap ["b", "A"] [("old", Z2m.J.jNum 2)]) "A"
      = some 3 ∧
    mapLookup (Z2m.buildStableEnumMap ["b", "A"] [("old", Z2m.J.jNum 2)]) "b"
      = some 4 := by
  have h := c3_enum_map_stable ["b", "A"] [("old", Z2m.J.jNum 2)] (by simp)
  refine ⟨h.2.1 "old" 2 (by simp [jLookup]) (by norm_num) (by norm_num), ?_, ?_⟩
  · have h3 := h.2.2.1 "A" 0 (by decide)
    simpa using h3
  · have h4 := h.2.2.1 "b" 1 (by decide)
    simpa using h4

/-- C2: for `rawMin < rawMax` and `raw ∈ [rawMin, rawMax]`, encoding the
decoded brightness value round-trips exactly (hence within `rawStep/2`):
`scaleFromPercent (scaleToPercent raw) = raw` in exact rational arithmetic;
and whenever `rawMax ≤ rawMin`, both scaling functions are the identity
(passthrough). -/
theorem c2_brightness_roundtrip (rawMin rawMax raw : ℚ)
    (hlt : rawMin < rawMax) (h1 : rawMin ≤ raw) (h2 : raw ≤ rawMax) :
    Z2m.scaleFromPercent (Z2m.scaleToPercent raw rawMin rawMax) rawMin rawMax = raw ∧
    ∀ lo hi x : ℚ, hi ≤ lo →
      Z2m.scaleToPercent x lo hi = x ∧ Z2m.scaleFromPercent x lo hi = x := by
  constructor
  · have hne : ¬ rawMax ≤ rawMin := not_le.mpr hlt
    have hsub : (0 : ℚ) < rawMax - rawMin := by linarith
    unfold Z2m.scaleToPercent
    rw [if_neg hne, qBound_eq_self h1 h2]
    set t : ℚ := (raw - rawMin) / (rawMax - rawMin) * 100 with ht
    have htnn : 0 ≤ t := by
      apply mul_nonneg _ (by norm_num)
      exact div_nonneg (by linarith) (le_of_lt hsub)
    have htle : t ≤ 100 := by
      rw [ht]
      have hle1 : (raw - rawMin) / (rawMax - rawMin) ≤ 1 := by
        rw [div_le_one hsub]; linarith
      nlinarith
    unfold Z2m.scaleFromPercent
    rw [if_neg hne, qBound_eq_self htnn htle, ht]
    field_simp
    ring
  · intro lo hi x hle
    constructor
    · unfold Z2m.scaleToPercent; rw [if_pos hle]
    · unfold Z2m.scaleFromPercent; rw [if_pos hle]

/-- Witness for C2 at `rawMin = 0`, `rawMax = 254`, `raw = 127`. -/
theorem c2_brightness_roundtrip_witness :
    Z2m.scaleFromPercent (Z2m.scaleToPercent 127 0 254) 0 254 = 127 := by
  exact (c2_brightness_roundtrip 0 254 127 (by norm_num) (by norm_num)
    (by norm_num)).1

theorem foldl_preserve {α β : Type} (f : β → α → β) (P : β → Prop)
    (h : ∀ b a, P b → P (f b a)) :
    ∀ (l : List α) (b : β), P b → P (l.foldl f b) := by
  intro l
  induction l with
  | nil => intro b hb; exact hb
  | cons x xs ih =>
    intro b hb
    exact ih (f b x) (h b x hb)

theorem collectEnumKeys_keys_ne (enumName : String) (values : List J) :
    ∀ k ∈ (collectEnumKeys enumName values).1, ¬ k = "" := by
  rw [collectEnumKeys]
  apply foldl_preserve (collectEnumStep enumName)
    (fun acc => ∀ k ∈ acc.1, ¬ k = "")
  · intro acc v hacc
    rw [collectEnumStep]
    by_cases hk : (if v.isString then v.toStringD ""
        else if v.isDouble then intToStr (v.toIntD 0) else "") = ""
    · simpa [hk] using hacc
    · simp only [hk, if_neg]
      intro k hkmem
      rcases List.mem_append.mp hkmem with h | h
      · exact hacc k h
      · simp only [List.mem_singleton] at h
        subst h
        exact hk
  · simp

theorem collectEnumKeys_norm_nil (values : List J) :
    (collectEnumKeys "" values).2.1 = [] := by
  rw [collectEnumKeys]
  have := foldl_preserve (collectEnumStep "")
    (fun acc => acc.2.1 = []) ?_ values ([], [], !values.isEmpty) rfl
  · exact this
  · intro acc v hacc
    rw [collectEnumStep]
    split_ifs <;> simp_all

theorem buildStableEnumMap_empty_pos (rawKeys : List String) (k : String)
    (hk : k ∈ rawKeys) (hne : ¬ k = "") :
    ∃ v, mapLookup (buildStableEnumMap rawKeys []) k = some v ∧ 1 ≤ v := by
  rw [buildStableEnumMap]
  rw [assignNew_lookup]
  have hmem : k ∈ dedupFirst ((sortCI rawKeys).filter
      (fun x => decide (¬ x = "") && ! mapContains (enumSeed []).1 x)) := by
    rw [mem_dedupFirst]
    apply List.mem_filter.mpr
    refine ⟨(mem_sortCI k rawKeys).mpr hk, ?_⟩
    simp [hne, enumSeed, mapContains, mapLookup]
  obtain ⟨i, hi⟩ := idxFirst_isSome_of_mem _ _ hmem
  have hseed : (enumSeed ([] : List (String × J))) = ([], 0) := rfl
  rw [hseed] at hi ⊢
  rw [hi]
  exact ⟨0 + 1 + i, rfl, by omega⟩

theorem buildStableEnumMap_empty_inj (rawKeys : List String)
    (k1 k2 : String) (v : Int)
    (h1 : mapLookup (buildStableEnumMap rawKeys []) k1 = some v)
    (h2 : mapLookup (buildStableEnumMap rawKeys []) k2 = some v) :
    k1 = k2 := by
  rw [buildStableEnumMap, assignNew_lookup] at h1 h2
  have hseed : (enumSeed ([] : List (String × J))) = ([], 0) := rfl
  rw [hseed] at h1 h2
  cases hidx1 : idxFirst k1 (dedupFirst ((sortCI rawKeys).filter
      (fun x => decide (¬ x = "") && ! mapContains ([] : List (String × Int)) x))) with
  | none => rw [hidx1] at h1; simp [mapLookup] at h1
  | some i1 =>
    cases hidx2 : idxFirst k2 (dedupFirst ((sortCI rawKeys).filter
        (fun x => decide (¬ x = "") && ! mapContains ([] : List (String × Int)) x))) with
    | none => rw [hidx2] at h2; simp [mapLookup] at h2
    | some i2 =>
      rw [hidx1] at h1
      rw [hidx2] at h2
      simp only at h1 h2
      injection h1 with h1
      injection h2 with h2
      have hii : i1 = i2 := by omega
      subst hii
      have g1 := idxFirst_get _ _ _ hidx1
      have g2 := idxFirst_get _ _ _ hidx2
      rw [g1] at g2
      exact Option.some.inj g2

theorem enumChoiceStep_choices_ne (enumName : String)
    (fb : List (String × Int))
    (acc : List AdapterConfigOption × List (String × Int) × List (Int × String))
    (k : String) (h : acc.1 ≠ []) :
    (enumChoiceStep enumName fb acc k).1 ≠ [] := by
  rw [enumChoiceStep]
  split_ifs <;> simp [h]

theorem buildEnumChoices_ne_nil (enumName : String) (fb : List (String × Int))
    (rawKeys : List String) (k : String) (hk : k ∈ rawKeys)
    (hv : mapGetD fb k 0 ≠ 0) :
    (buildEnumChoices enumName rawKeys fb).1 ≠ [] := by
  rw [buildEnumChoices]
  have main : ∀ (keys : List String)
      (acc : List AdapterConfigOption × List (String × Int) × List (Int × String)),
      k ∈ keys ∨ acc.1 ≠ [] →
      (keys.foldl (enumChoiceStep enumName fb) acc).1 ≠ [] := by
    intro keys
    induction keys with
    | nil =>
      intro acc hacc
      rcases hacc with h | h
      · simp at h
      · exact h
    | cons x xs ih =>
      intro acc hacc
      rw [List.foldl_cons]
      rcases hacc with h | h
      · rcases List.mem_cons.mp h with hx | hx
        · subst hx
          apply ih
          right
          rw [enumChoiceStep]
          rw [if_neg hv]
          simp
        · exact ih _ (Or.inl hx)
      · exact ih _ (Or.inr (enumChoiceStep_choices_ne enumName fb acc x h))
  exact main rawKeys ([], [], []) (Or.inl hk)

theorem buildEnumChoices_r2v_mirror (enumName : String)
    (fb : List (String × Int)) (rawKeys : List String) :
    ∀ k v, mapLookup (buildEnumChoices enumName rawKeys fb).2.1 k = some v →
      mapLookup fb k = some v := by
  rw [buildEnumChoices]
  have := foldl_preserve (enumChoiceStep enumName fb)
    (fun acc => ∀ k v, mapLookup acc.2.1 k = some v → mapLookup fb k = some v)
    ?_ rawKeys ([], [], []) ?_
  · exact this
  · intro acc x hacc
    rw [enumChoiceStep]
    by_cases hz : mapGetD fb x 0 = 0
    · simpa [hz] using hacc
    · rw [if_neg hz]
      intro k v hkv
      simp only at hkv
      by_cases hkx : x = k
      · subst hkx
        rw [mapLookup_mapInsert_self] at hkv
        injection hkv with hkv
        subst hkv
        rw [mapGetD] at hz ⊢
        cases hfb : mapLookup fb x with
        | none => rw [hfb] at hz; simp at hz
        | some w => simp
      · rw [mapLookup_mapInsert_ne _ _ _ _ hkx] at hkv
        exact hacc k v hkv
  · intro k v hkv
    simp [mapLookup] at hkv

/-- C7 (amended): for every channel produced by the expose compiler from an
`enum` expose whose property has no fixed enum-name mapping and whose
values contain at least one raw key and at least one non-numeric raw key,
the channel's `data_type` is `Enum`, its choices list is non-empty, and the
binding's `enum_raw_to_value` map is injective. (As stated the claim fails:
an all-numeric or empty `values` list yields an `Enum` channel with empty
choices or colliding values, see the counterexample.) -/
theorem c7_enum_channel_amended (expose : List (String × Z2m.J))
    (entry : Z2m.Z2mDeviceEntry)
    (h1 : ¬ Z2m.exposeProperty expose = "")
    (h2 : Z2m.exposeIsMinMaxHelper expose = false)
    (h3 : Z2m.mapContains entry.bindingsByChannel (Z2m.exposeChannelId expose)
      = false)
    (h4 : Z2m.exposeTypeStr expose = "enum")
    (h5 : Z2m.exposeEnumName expose = "")
    (h6 : (Z2m.collectEnumKeys "" ((Z2m.jLookup expose "values").toArrayD)).1 ≠ [])
    (h7 : (Z2m.collectEnumKeys "" ((Z2m.jLookup expose "values").toArrayD)).2.2
      = false) :
    ∃ c b,
      (Z2m.addChannelFromExpose expose entry).channels.getLast? = some c
      ∧ Z2m.mapLookup (Z2m.addChannelFromExpose expose entry).bindingsByChannel
          (Z2m.exposeChannelId expose) = some b
      ∧ c.dataType = Z2m.ChannelDataType.Enum
      ∧ c.choices ≠ []
      ∧ b.dataType = Z2m.ChannelDataType.Enum
      ∧ ∀ k1 k2 v, Z2m.mapLookup b.enumRawToValue k1 = some v →
          Z2m.mapLookup b.enumRawToValue k2 = some v → k1 = k2 := by
  simp only [addChannelFromExpose, h1, h2, h3, h4, h5, h7, if_true, if_false,
    decide_True, Bool.true_or, Bool.not_true, Bool.and_false, ite_true,
    ite_false, Bool.false_eq_true, collectEnumKeys_norm_nil, List.map_nil]
  refine ⟨_, _, List.getLast?_concat _, mapLookup_mapInsert_self _ _ _,
    ?_, ?_, ?_, ?_⟩
  · rfl
  · obtain ⟨k0, hk0⟩ := List.exists_mem_of_ne_nil _ h6
    have hk0ne := collectEnumKeys_keys_ne "" _ k0 hk0
    obtain ⟨v, hv, hv1⟩ := buildStableEnumMap_empty_pos _ k0 hk0 hk0ne
    apply buildEnumChoices_ne_nil "" _ _ k0 hk0
    rw [mapGetD, hv]
    simp only [Option.getD_some]
    omega
  · rfl
  · intro k1 k2 v hv1 hv2
    exact buildStableEnumMap_empty_inj _ k1 k2 v
      (buildEnumChoices_r2v_mirror "" _ _ k1 v hv1)
      (buildEnumChoices_r2v_mirror "" _ _ k2 v hv2)

/-- Witness for C7 (amended) at a concrete enum expose with raw values
`["a", "b"]`. -/
theorem c7_enum_channel_amended_witness :
    ∃ c b,
      (Z2m.addChannelFromExpose
          [("property", Z2m.J.jStr "mode"), ("type", Z2m.J.jStr "enum"),
           ("values", Z2m.J.jArr [Z2m.J.jStr "a", Z2m.J.jStr "b"])]
          ({} : Z2m.Z2mDeviceEntry)).channels.getLast? = some c
      ∧ Z2m.mapLookup (Z2m.addChannelFromExpose
          [("property", Z2m.J.jStr "mode"), ("type", Z2m.J.jStr "enum"),
           ("values", Z2m.J.jArr [Z2m.J.jStr "a", Z2m.J.jStr "b"])]
          ({} : Z2m.Z2mDeviceEntry)).bindingsByChannel
          (Z2m.exposeChannelId
            [("property", Z2m.J.jStr "mode"), ("type", Z2m.J.jStr "enum"),
             ("values", Z2m.J.jArr [Z2m.J.jStr "a", Z2m.J.jStr "b"])]) = some b
      ∧ c.dataType = Z2m.ChannelDataType.Enum
      ∧ c.choices ≠ []
      ∧ b.dataType = Z2m.ChannelDataType.Enum
      ∧ ∀ k1 k2 v, Z2m.mapLookup b.enumRawToValue k1 = some v →
          Z2m.mapLookup b.enumRawToValue k2 = some v → k1 = k2 :=
  c7_enum_channel_amended _ _ (by decide) (by decide) (by decide) (by decide)
    (by decide) (by decide) (by decide)

/-- Counterexample for C7 as stated: the enum expose `mode` with values
`[0]` produces a channel with `data_type = Enum` whose choices list is
empty (the numeric raw value `0` maps to itself and is dropped by the
`mappedValue == 0` guard). -/
theorem c7_counterexample :
    ¬ (∀ c ∈ (Z2m.addChannelFromExpose
        [("property", Z2m.J.jStr "mode"), ("type", Z2m.J.jStr "enum"),
         ("values", Z2m.J.jArr [Z2m.J.jNum 0])]
        ({} : Z2m.Z2mDeviceEntry)).channels,
        c.dataType = Z2m.ChannelDataType.Enum → c.choices ≠ []) := by
  decide

/-- C1: every call to `updateChannelState` emits exactly one `cmdResult`
with the given `cmdId`, and its status is the one determined by the
spec's ordered checks (`c1SpecStatus`): unresolvable device →
NotSupported, missing binding → NotSupported, non-writable →
NotSupported, adapter not Connected → TemporarilyOffline, encoding
failure → InvalidArgument, publish failure → Failure, else Success. The
hypothesis records that a Connected adapter has a live MQTT client in
the Connected state (which holds in every reachable state), so the
code's composite offline check coincides with the spec's single
`connected` check. -/
theorem c1_update_channel_state_response (o : ExternOracle)
    (st : AdapterState) (d c : String) (v : Val) (cmdId : Nat) (now : Int)
    (hcc : st.connected = true →
      st.client = true ∧ st.clientState = MqttState.Connected) :
    (updateChannelState o st d c v cmdId now).2.filterMap evCmdResult
      = [(cmdId, c1SpecStatus o st d c v)] := by
  simp only [updateChannelState, c1SpecStatus]
  cases hdev : mapLookup st.devices (mapGetD st.mqttByExternal d d) with
  | none => simp [hdev, evCmdResult]
  | some entry =>
    cases hbind : mapLookup entry.bindingsByChannel c with
    | none => simp [hdev, hbind, evCmdResult]
    | some binding =>
      by_cases hw : binding.flags.writable = false
      · simp [hdev, hbind, hw, evCmdResult]
      · by_cases hconn : st.connected = false
        · simp [hdev, hbind, hw, hconn, evCmdResult]
        · have hct : st.connected = true := by
            cases h : st.connected
            · exact absurd h hconn
            · rfl
          obtain ⟨hcl, hcs⟩ := hcc hct
          cases hbp : buildCommandPayload o binding v with
          | error errStr =>
            simp [hdev, hbind, hw, hconn, hcl, hcs, hbp, evCmdResult]
          | ok payload =>
            by_cases hpub : st.publishOk = false
            · simp [hdev, hbind, hw, hconn, hcl, hcs, hbp, publishCommand,
                hpub, evCmdResult]
            · simp [hdev, hbind, hw, hconn, hcl, hcs, hbp, publishCommand,
                hpub, evCmdResult]

theorem c1_update_channel_state_response_witness :
    (Z2m.sampleConnectedState.connected = true →
      Z2m.sampleConnectedState.client = true ∧
      Z2m.sampleConnectedState.clientState = Z2m.MqttState.Connected)
    ∧ (updateChannelState trivialOracle Z2m.sampleConnectedState "0xAA"
        "state" (Val.vBool true) 7 0).2.filterMap evCmdResult
      = [(7, c1SpecStatus trivialOracle Z2m.sampleConnectedState "0xAA"
            "state" (Val.vBool true))] :=
  ⟨fun _ => ⟨rfl, rfl⟩,
   c1_update_channel_state_response trivialOracle Z2m.sampleConnectedState
     "0xAA" "state" (Val.vBool true) 7 0 (fun _ => ⟨rfl, rfl⟩)⟩

/-- C8: no call to `updateChannelState` ever emits a
`channelStateUpdated` event — the command path only emits `cmdResult`
and MQTT publishes. -/
theorem c8_command_no_local_update (o : ExternOracle) (st : AdapterState)
    (d c : String) (v : Val) (cmdId : Nat) (now : Int) :
    ∀ e ∈ (updateChannelState o st d c v cmdId now).2,
      isChannelStateEvent e = false := by
  simp only [updateChannelState, publishCommand]
  repeat' split
  all_goals simp [isChannelStateEvent]

theorem c8_command_no_local_update_witness :
    Event.cmdResult 7 CmdStatus.NotSupported "Unknown device"
        ∈ (updateChannelState trivialOracle initialState "x" "y"
            Val.vInvalid 7 0).2
    ∧ isChannelStateEvent
        (Event.cmdResult 7 CmdStatus.NotSupported "Unknown device") = false :=
  ⟨List.Mem.head _,
   c8_command_no_local_update trivialOracle initialState "x" "y"
     Val.vInvalid 7 0
     (Event.cmdResult 7 CmdStatus.NotSupported "Unknown device")
     (List.Mem.head _)⟩

/-- C9: `requestFullSync` re-emits `deviceUpdated` for every registered
device with its stored channel list regardless of connectivity, and the
only publish it can issue is `bridge/request/devices`, present exactly
when the MQTT client exists and is Connected. -/
theorem c9_full_sync_reemission (st : AdapterState) :
    (requestFullSync st).1.pendingFullSync = true
    ∧ (∀ p ∈ st.devices,
        Event.deviceUpdated p.2.device p.2.channels ∈ (requestFullSync st).2)
    ∧ (st.client = true ∧ st.clientState = MqttState.Connected →
        Event.publish (st.baseTopic ++ "/bridge/request/devices") (J.jObj [])
          ∈ (requestFullSync st).2)
    ∧ (∀ e ∈ (requestFullSync st).2, isPublishEvent e = true →
        (st.client = true ∧ st.clientState = MqttState.Connected)
        ∧ e = Event.publish (st.baseTopic ++ "/bridge/request/devices")
            (J.jObj [])) := by
  refine ⟨rfl, ?_, ?_, ?_⟩
  · intro p hp
    simp only [requestFullSync]
    exact List.mem_append_right _ (List.mem_map_of_mem _ hp)
  · rintro ⟨h1, h2⟩
    simp only [requestFullSync]
    simp [h1, h2]
  · intro e he hp
    simp only [requestFullSync, List.mem_append] at he
    rcases he with h | h
    · split at h
      · rename_i hc
        simp only [List.mem_singleton] at h
        exact ⟨⟨hc.1, hc.2⟩, h⟩
      · simp at h
    · obtain ⟨p, hp', rfl⟩ := List.mem_map.mp h
      simp [isPublishEvent] at hp

theorem c9_full_sync_reemission_witness :
    Event.deviceUpdated Z2m.sampleEntry.device Z2m.sampleEntry.channels
      ∈ (requestFullSync Z2m.sampleConnectedState).2
    ∧ Event.publish
        (Z2m.sampleConnectedState.baseTopic ++ "/bridge/request/devices")
        (J.jObj [])
      ∈ (requestFullSync Z2m.sampleConnectedState).2 :=
  ⟨(c9_full_sync_reemission Z2m.sampleConnectedState).2.1
     ("bulb1", Z2m.sampleEntry) (List.Mem.head _),
   (c9_full_sync_reemission Z2m.sampleConnectedState).2.2.1 ⟨rfl, rfl⟩⟩

/-- C10: an availability message for a known device whose trimmed,
lowercased state string is neither "online" nor "offline" still emits a
`channelStateUpdated` on the device's connectivity channel carrying
ConnectivityStatus Unknown, instead of being dropped. -/
theorem c10_availability_unknown_state (st : AdapterState)
    (deviceId payload : String) (tsMs : Int) (entry : Z2mDeviceEntry)
    (pr : String × Z2mChannelBinding)
    (hdev : mapLookup st.devices deviceId = some entry)
    (hfind : entry.bindingsByChannel.find? (fun p => p.2.isAvailability)
      = some pr)
    (hon : strToLower (strTrim payload) ≠ "online")
    (hoff : strToLower (strTrim payload) ≠ "offline") :
    handleAvailabilityPayload st deviceId payload tsMs
      = [Event.channelStateUpdated entry.device.id pr.2.channelId
          (Val.vInt ConnectivityStatus.Unknown.toInt) tsMs] := by
  simp only [handleAvailabilityPayload, hdev, hfind]
  simp [hon, hoff]

theorem c10_availability_unknown_state_witness :
    mapLookup Z2m.sampleConnectedState.devices "bulb1" = some Z2m.sampleEntry
    ∧ strToLower (strTrim " Weird ") ≠ "online"
    ∧ handleAvailabilityPayload Z2m.sampleConnectedState "bulb1" " Weird " 5
      = [Event.channelStateUpdated "0xAA" "connectivity" (Val.vInt 0) 5] :=
  ⟨rfl, by decide,
   c10_availability_unknown_state Z2m.sampleConnectedState "bulb1" " Weird " 5
     Z2m.sampleEntry ("connectivity", Z2m.sampleAvailabilityBinding)
     rfl rfl (by decide) (by decide)⟩

/-- Filtering drops every binding of a key the predicate rejects. -/
theorem mapLookup_filter_none {κ α : Type} [DecidableEq κ]
    (m : List (κ × α)) (k : κ) (p : κ × α → Bool)
    (hp : ∀ q ∈ m, q.1 = k → p q = false) :
    mapLookup (m.filter p) k = none := by
  induction m with
  | nil => rfl
  | cons q tl ih =>
    have ih' := ih (fun r hr hk => hp r (List.mem_cons_of_mem _ hr) hk)
    cases hq : p q with
    | false => simpa [List.filter_cons, hq] using ih'
    | true =>
      have hne : q.1 ≠ k := fun hk => by
        have := hp q (List.mem_cons_self _ _) hk
        rw [this] at hq
        exact Bool.false_ne_true hq
      simpa [List.filter_cons, hq, mapLookup, hne] using ih'

/-- `QHash::remove` leaves no binding for the removed key. -/
theorem mapLookup_mapRemove_self {κ α : Type} [DecidableEq κ]
    (m : List (κ × α)) (k : κ) :
    mapLookup (mapRemove m k) k = none := by
  refine mapLookup_filter_none m k _ (fun q _ hk => ?_)
  simp [hk]

/-- The pending-state buffer entry of the handled device after
`handleDeviceStatePayload`: untouched when the device is known, the fresh
payload when it is not. -/
theorem hdsp_pending_lookup (o : ExternOracle) (st : AdapterState) (d : String)
    (p : List (String × J)) (t : Int) :
    mapLookup (handleDeviceStatePayload o st d p t).1.pendingStatePayloads d
      = if (mapLookup st.devices d).isSome
        then mapLookup st.pendingStatePayloads d
        else some p := by
  cases h : mapLookup st.devices d with
  | none =>
    simp only [handleDeviceStatePayload, h]
    simp [mapLookup_mapInsert_self]
  | some e =>
    simp only [handleDeviceStatePayload, h]
    simp

/-- C5: a state payload arriving for a device that is not in the registry
is buffered under `pendingStatePayloads` keyed by the mqtt id with no
emission; when the matching `bridge/devices` entry is subsequently
processed, the buffered payload is replayed exactly once as an ordinary
state payload against the freshly registered device, and the buffer
entry is removed. The hypotheses pin the bridge entry to the plain,
non-rename shape: its trimmed `friendly_name` is the buffered id, it has
no `ieee_address`, interview and support checks pass, and it carries no
inline availability, `last_seen` or Coordinator marker. -/
theorem c5_pending_state_buffered_and_replayed (o : ExternOracle) (st : AdapterState)
    (deviceId : String) (payload : List (String × J)) (tsMs : Int)
    (obj : List (String × J)) (evs0 : List Event) (seen : List String)
    (now : Int)
    (hunknown : mapLookup st.devices deviceId = none)
    (hfn : strTrim ((jLookup obj "friendly_name").toStringD "") = deviceId)
    (hne : deviceId ≠ "")
    (hieee : strTrim ((jLookup obj "ieee_address").toStringD "") = "")
    (hic : (jLookup obj "interview_completed").toBoolD true = true)
    (hsup : (jLookup obj "supported").toBoolD true = true)
    (hmq : (buildDeviceEntry obj).mqttId = deviceId)
    (hav : availabilityFromValue (jLookup obj "availability") = "")
    (hav2 : strTrim ((jLookup obj "availability_state").toStringD "") = "")
    (hls : lastSeenMsFromValue o (jLookup obj "last_seen") ≤ 0)
    (htype : ciEq ((jLookup obj "type").toStringD "") "Coordinator" = false) :
    handleDeviceStatePayload o st deviceId payload tsMs
      = ({ st with pendingStatePayloads :=
            mapInsert st.pendingStatePayloads deviceId payload }, [])
    ∧ (processBridgeDevice o
        { st := { st with pendingStatePayloads :=
                    mapInsert st.pendingStatePayloads deviceId payload },
          evs := evs0, seen := seen } (J.jObj obj) now).evs
      = evs0
        ++ [Event.deviceUpdated (buildDeviceEntry obj).device
              (buildDeviceEntry obj).channels]
        ++ (handleDeviceStatePayload o
             { st with
                devices := mapInsert st.devices deviceId (buildDeviceEntry obj),
                mqttByExternal :=
                  if (buildDeviceEntry obj).device.id ≠ "" then
                    mapInsert st.mqttByExternal (buildDeviceEntry obj).device.id
                      deviceId
                  else st.mqttByExternal,
                pendingStatePayloads :=
                  mapRemove (mapInsert st.pendingStatePayloads deviceId payload)
                    deviceId }
             deviceId payload now).2
    ∧ mapLookup (processBridgeDevice o
        { st := { st with pendingStatePayloads :=
                    mapInsert st.pendingStatePayloads deviceId payload },
          evs := evs0, seen := seen } (J.jObj obj) now).st.pendingStatePayloads
        deviceId
      = none := by
  have hsl : strToLower "" = "" := rfl
  have hls' : ¬ (lastSeenMsFromValue o (jLookup obj "last_seen") > 0) :=
    not_lt.mpr hls
  refine ⟨by simp only [handleDeviceStatePayload, hunknown], ?_, ?_⟩
  · simp only [processBridgeDevice, hfn, hieee, hic, hsup]
    simp only [if_neg hne]
    simp only [Bool.true_eq_false, or_self, if_false, ite_false, if_true,
      ite_true, ne_eq, not_true_eq_false, not_false_eq_true]
    simp only [processBridgeUpsert, bridgeRenameEvs, bridgeAvailEvs,
      bridgeCoordStep, bridgeReplayStep, hmq, hav, hav2]
    simp only [Bool.true_eq_false, or_self, if_false, ite_false, if_true,
      ite_true, ne_eq, not_true_eq_false, not_false_eq_true, false_and]
    cases hlook : mapLookup st.devices "" <;>
      (try simp only [hlook, false_and, if_false, ite_false, hmq,
        mapLookup_mapInsert_self]) <;>
      (try simp only [htype, Bool.false_eq_true, if_false, ite_false]) <;>
      cases hfind : (buildDeviceEntry obj).bindingsByChannel.find?
          (fun p => p.2.isAvailability) <;>
      simp [hfind, hav, hav2, hsl, hls']
  · simp only [processBridgeDevice, hfn, hieee, hic, hsup]
    simp only [if_neg hne]
    simp only [Bool.true_eq_false, or_self, if_false, ite_false, if_true,
      ite_true, ne_eq, not_true_eq_false, not_false_eq_true]
    simp only [processBridgeUpsert, bridgeRenameEvs, bridgeAvailEvs,
      bridgeCoordStep, bridgeReplayStep, hmq, hav, hav2]
    simp only [Bool.true_eq_false, or_self, if_false, ite_false, if_true,
      ite_true, ne_eq, not_true_eq_false, not_false_eq_true, false_and]
    cases hlook : mapLookup st.devices "" <;>
      (try simp only [hlook, false_and, if_false, ite_false, hmq,
        mapLookup_mapInsert_self]) <;>
      (try simp only [htype, Bool.false_eq_true, if_false, ite_false]) <;>
      cases hfind : (buildDeviceEntry obj).bindingsByChannel.find?
          (fun p => p.2.isAvailability) <;>
      simp [hfind, hav, hav2, hsl, hls', hdsp_pending_lookup,
        mapLookup_mapInsert_self, mapLookup_mapRemove_self]


theorem c5_pending_state_buffered_and_replayed_witness :
    mapLookup initialState.devices "lamp" = none
    ∧ mapLookup (processBridgeDevice trivialOracle
        { st := { initialState with pendingStatePayloads :=
                                      mapInsert
                                        initialState.pendingStatePayloads
                                        "lamp" [("state", J.jStr "ON")] },
          evs := [], seen := [] }
        (J.jObj [("friendly_name", J.jStr "lamp")]) 4).st.pendingStatePayloads
        "lamp" = none :=
  ⟨rfl,
   (c5_pending_state_buffered_and_replayed trivialOracle initialState
      "lamp" [("state", J.jStr "ON")] 3 [("friendly_name", J.jStr "lamp")]
      [] [] 4 rfl rfl (by decide) rfl rfl rfl (by decide) rfl rfl
      (by decide) (by decide)).2.2⟩

theorem mapLookup_eq_none_iff {κ α : Type} [DecidableEq κ]
    (m : List (κ × α)) (k : κ) :
    mapLookup m k = none ↔ ∀ q ∈ m, q.1 ≠ k := by
  induction m with
  | nil => simp [mapLookup]
  | cons hd tl ih =>
    obtain ⟨k', v⟩ := hd
    by_cases h : k' = k
    · simp [mapLookup, h]
    · simp [mapLookup, h, ih]

theorem mapLookup_isSome_of_mem {κ α : Type} [DecidableEq κ]
    (m : List (κ × α)) (q : κ × α) (hq : q ∈ m) :
    (mapLookup m q.1).isSome = true := by
  induction m with
  | nil => cases hq
  | cons hd tl ih =>
    obtain ⟨k', v⟩ := hd
    by_cases h : k' = q.1
    · simp [mapLookup, h]
    · rcases List.mem_cons.mp hq with h1 | h1
      · rw [h1] at h
        exact absurd rfl h
      · simp [mapLookup, h, ih h1]

theorem sweepFoldRemove_pres (l : List (String × Z2mDeviceEntry))
    (m : List (String × String)) (x : String)
    (h : mapLookup m x = none) :
    mapLookup (l.foldl
      (fun m p => if p.2.device.id ≠ "" then mapRemove m p.2.device.id else m)
      m) x = none := by
  induction l generalizing m with
  | nil => exact h
  | cons a l ih =>
    refine ih _ ?_
    show mapLookup
      (if a.2.device.id ≠ "" then mapRemove m a.2.device.id else m) x = none
    by_cases ha : a.2.device.id ≠ ""
    · rw [if_pos ha]
      simp only [mapRemove]
      rw [mapLookup_eq_none_iff] at h ⊢
      intro q hq
      exact h q (List.mem_of_mem_filter hq)
    · rw [if_neg ha]
      exact h

theorem sweepFoldRemove_none (l : List (String × Z2mDeviceEntry))
    (m : List (String × String)) (x : String) (hx : x ≠ "")
    (q : String × Z2mDeviceEntry) (hq : q ∈ l) (hid : q.2.device.id = x) :
    mapLookup (l.foldl
      (fun m p => if p.2.device.id ≠ "" then mapRemove m p.2.device.id else m)
      m) x = none := by
  induction l generalizing m with
  | nil => cases hq
  | cons a l ih =>
    rcases List.mem_cons.mp hq with h1 | h1
    · subst h1
      simp only [List.foldl_cons, hid, hx, ne_eq, not_false_eq_true, if_true,
        ite_true]
      exact sweepFoldRemove_pres l _ x (mapLookup_mapRemove_self m x)
    · rw [List.foldl_cons]
      exact ih _ h1

theorem filterMap_devRemoved_map (l : List (String × Z2mDeviceEntry)) :
    (l.map (fun p => Event.deviceRemoved p.2.device.id)).filterMap
        evDeviceRemoved
      = l.map (fun p => p.2.device.id) := by
  induction l with
  | nil => rfl
  | cons a l ih => simp [evDeviceRemoved, ih]

/-- C4 counterexample: a full snapshot whose only entry renames a known
device by ieee address migrates the registry entry — the old mqtt id
"bulb1" vanishes from the registry although it does not appear in the
payload, yet no `deviceRemoved` is emitted. -/
theorem c4_counterexample :
    mapContains Z2m.sampleConnectedState.devices "bulb1" = true
    ∧ (handleBridgeDevicesPayload trivialOracle Z2m.sampleConnectedState
          [J.jObj [("friendly_name", J.jStr "new"),
                   ("ieee_address", J.jStr "0xAA")]] true 0).1.devices.map
        (fun p => p.1) = ["new"]
    ∧ (handleBridgeDevicesPayload trivialOracle Z2m.sampleConnectedState
          [J.jObj [("friendly_name", J.jStr "new"),
                   ("ieee_address", J.jStr "0xAA")]] true 0).2.filterMap
        evDeviceRemoved = [] :=
  ⟨rfl, rfl, rfl⟩

theorem filterMap_devRemoved_comp (l : List (String × Z2mDeviceEntry)) :
    l.filterMap (evDeviceRemoved ∘ fun p => Event.deviceRemoved p.2.device.id)
      = l.map (fun p => p.2.device.id) := by
  induction l with
  | nil => rfl
  | cons a l ih => simp [evDeviceRemoved, Function.comp, ih]

/-- C4 (amended): the full-snapshot sweep drops exactly the device keys
not seen while processing the payload — each dropped entry gets a
`deviceRemoved` with its external id and its non-empty external id is
cleared from the index, while seen keys survive; a device can instead be
migrated to a new key by an ieee rename, without any removal signal. The
response form performs no sweep: with no processable entries it leaves
the registry untouched, whereas a full snapshot with no processable
entries removes every device. -/
theorem c4_amended (o : ExternOracle) (st : AdapterState)
    (seenL : List String) (now : Int) :
    (∀ p ∈ st.devices, p.1 ∉ seenL →
        mapContains (sweepRemoved st seenL).1.devices p.1 = false
        ∧ Event.deviceRemoved p.2.device.id ∈ (sweepRemoved st seenL).2
        ∧ (p.2.device.id ≠ "" →
            mapLookup (sweepRemoved st seenL).1.mqttByExternal p.2.device.id
              = none))
    ∧ (∀ p ∈ st.devices, p.1 ∈ seenL →
        mapContains (sweepRemoved st seenL).1.devices p.1 = true)
    ∧ (handleBridgeDevicesPayload o st [] false now).1.devices = st.devices
    ∧ (handleBridgeDevicesPayload o st [] false now).2.filterMap
        evDeviceRemoved = []
    ∧ (handleBridgeDevicesPayload o st [] true now).1.devices = []
    ∧ (handleBridgeDevicesPayload o st [] true now).2.filterMap
        evDeviceRemoved = st.devices.map (fun p => p.2.device.id) := by
  have hid : st.devices.filter
      (fun p => decide (¬ p.1 ∈ ([] : List String))) = st.devices :=
    List.filter_eq_self.mpr (fun a _ => by simp)
  refine ⟨?_, ?_, ?_, ?_, ?_, ?_⟩
  · intro p hp hseen
    refine ⟨?_, ?_, ?_⟩
    · simp only [sweepRemoved, mapContains]
      rw [mapLookup_filter_none]
      · rfl
      · intro q hq hk
        rw [hk]
        simp [hseen]
    · simp only [sweepRemoved]
      exact List.mem_map_of_mem _
        (List.mem_filter.mpr ⟨hp, by simp [hseen]⟩)
    · intro hne
      simp only [sweepRemoved]
      exact sweepFoldRemove_none _ _ _ hne p
        (List.mem_filter.mpr ⟨hp, by simp [hseen]⟩) rfl
  · intro p hp hseen
    simp only [sweepRemoved, mapContains]
    have : p ∈ st.devices.filter (fun q => decide (q.1 ∈ seenL)) :=
      List.mem_filter.mpr ⟨hp, by simp [hseen]⟩
    rw [mapLookup_isSome_of_mem _ p this]
  · simp only [handleBridgeDevicesPayload, List.foldl_nil]
    repeat' split
    all_goals simp_all [evDeviceRemoved]
  · simp only [handleBridgeDevicesPayload, List.foldl_nil]
    repeat' split
    all_goals simp_all [evDeviceRemoved]
  · simp only [handleBridgeDevicesPayload, List.foldl_nil, sweepRemoved]
    repeat' split
    all_goals simp_all [List.filter_eq_nil_iff]
  · simp only [handleBridgeDevicesPayload, List.foldl_nil, sweepRemoved, hid]
    repeat' split
    all_goals simp_all [filterMap_devRemoved_map, filterMap_devRemoved_comp,
      evDeviceRemoved, hid]

theorem c4_amended_witness :
    mapContains (sweepRemoved Z2m.sampleConnectedState []).1.devices "bulb1"
      = false
    ∧ Event.deviceRemoved "0xAA" ∈ (sweepRemoved Z2m.sampleConnectedState []).2
    ∧ mapLookup (sweepRemoved Z2m.sampleConnectedState []).1.mqttByExternal
        "0xAA" = none :=
  ⟨((c4_amended trivialOracle Z2m.sampleConnectedState [] 0).1
      ("bulb1", Z2m.sampleEntry) (List.Mem.head _) (by simp)).1,
   ((c4_amended trivialOracle Z2m.sampleConnectedState [] 0).1
      ("bulb1", Z2m.sampleEntry) (List.Mem.head _) (by simp)).2.1,
   ((c4_amended trivialOracle Z2m.sampleConnectedState [] 0).1
      ("bulb1", Z2m.sampleEntry) (List.Mem.head _) (by simp)).2.2
     (by decide)⟩
